import Mathlib

/-!
Shallow embedding of the persistence and billing core of the
Hospital-Management-System repository (src/app/utils/db_connector.py and
src/app/services/billing_engine.py), together with theorems settling the
frozen claims about that code.

Conventions of the embedding:
* SQLite column values are dynamically typed; they are modelled by the
  inductive type Value.  A Python datetime object is modelled by vdtm
  carrying its isoformat string; an enum member stored through the
  SQLAlchemy Enum type is modelled by venum carrying the member value
  string (this is what DatabaseConnector hands in and out; the on-disk
  spelling used by the driver is invisible at this interface).  The list
  of item dictionaries produced by BillingItem.to_dict is the only
  structured value the system ever builds, modelled by vitems.
* Python floats are modelled by rationals; Python ints by Int.
* A record (a Python dict row) is an association list from field name to
  Value; dict access reads the first binding and dict assignment replaces
  it in place, which Record.get and Record.set mirror.
* Each Python exception that the connector code can surface is modelled
  by a PyError constructor: DatabaseException, and the ValueError,
  TypeError and AttributeError that escape because the except clauses of
  db_connector.py only catch SQLAlchemyError.
* A fallible operation returns Except PyError; a successful mutation
  returns the new database state (the session.commit of the source), and
  an error returns no state (the rollback of the source).
-/

set_option autoImplicit false

namespace HMS

/-- Item dictionary as produced by BillingItem.to_dict in
billing_engine.py: the four keys description, quantity, unit_price and
total with fixed value shapes. -/
structure ItemD where
  description : String
  quantity : Int
  unit_price : ℚ
  total : ℚ
deriving DecidableEq, Repr

/-- Dynamically typed column value (SQLite storage plus the Python-side
objects that DatabaseConnector passes around). -/
inductive Value where
  | vstr (s : String)
  | vint (n : Int)
  | vnum (q : ℚ)
  | vbool (b : Bool)
  | vnull
  | vdtm (iso : String)
  | venum (s : String)
  | vitems (l : List ItemD)
deriving DecidableEq, Repr

/-- Record: a row or a caller-supplied dict, as an association list. -/
abbrev Record := List (String × Value)

/-- Dict read: value of the first binding of the key, if any. -/
def Record.get (r : Record) (k : String) : Option Value :=
  (r.find? (fun p => p.1 == k)).map Prod.snd

/-- Dict assignment: replace the first binding of the key in place, or
append the binding when the key is absent. -/
def Record.set : Record → String → Value → Record
  | [], k, v => [(k, v)]
  | p :: r, k, v => if p.1 == k then (k, v) :: r else p :: Record.set r k v

/-- Keys of a record, in order. -/
def Record.keys (r : Record) : List String := r.map Prod.fst

/-- Python exceptions that can escape the connector: DatabaseException
(raised by the code itself after catching SQLAlchemyError), and the
ValueError, TypeError and AttributeError that the except clauses do not
catch. -/
inductive PyError where
  | databaseException (msg : String)
  | valueError (msg : String)
  | typeError (msg : String)
  | attributeError (msg : String)
deriving DecidableEq, Repr

/-- Message carried by an error. -/
def PyError.msg : PyError → String
  | .databaseException m => m
  | .valueError m => m
  | .typeError m => m
  | .attributeError m => m

/-- Schema of one SQLAlchemy model of db_connector.py: its column names
(including the internal autoincrement primary key id), the designated
business identifier column (the id_field_map of get_next_id), the
nullable=False columns, the unique=True columns (plus the primary key),
the Boolean and DateTime typed columns, the Enum typed columns with
their admitted member-value strings, and the python-side column
defaults. The created_at default, datetime.now, is dynamic and is
handled by the dtCols field together with the now argument of create. -/
structure TableSchema where
  idField : String
  columns : List String
  notNullCols : List String
  uniqueCols : List String
  boolCols : List String
  dtCols : List String
  enumCols : List (String × List String)
  defaults : List (String × Value)
deriving DecidableEq, Repr

/-- Member values of UserRoleEnum. -/
def roleValues : List String := ["admin", "doctor", "nurse", "receptionist"]

/-- Member values of AppointmentStatusEnum. -/
def statusValues : List String := ["scheduled", "confirmed", "completed", "cancelled"]

/-- Schema of UserModel (table users). -/
def usersSchema : TableSchema where
  idField := "user_id"
  columns := ["id", "user_id", "username", "password", "role", "full_name",
    "email", "phone", "specialization", "is_active", "created_at"]
  notNullCols := ["user_id", "username", "password", "role", "full_name", "email"]
  uniqueCols := ["id", "user_id", "username"]
  boolCols := ["is_active"]
  dtCols := ["created_at"]
  enumCols := [("role", roleValues)]
  defaults := [("is_active", .vbool true)]

/-- Schema of PatientModel (table patients). -/
def patientsSchema : TableSchema where
  idField := "patient_id"
  columns := ["id", "patient_id", "first_name", "last_name", "date_of_birth",
    "gender", "phone", "email", "address", "blood_group", "emergency_contact",
    "registration_date", "is_active", "created_at"]
  notNullCols := ["patient_id", "first_name", "last_name", "date_of_birth",
    "gender", "phone", "registration_date"]
  uniqueCols := ["id", "patient_id"]
  boolCols := ["is_active"]
  dtCols := ["created_at"]
  enumCols := []
  defaults := [("is_active", .vbool true)]

/-- Schema of AppointmentModel (table appointments). -/
def appointmentsSchema : TableSchema where
  idField := "appointment_id"
  columns := ["id", "appointment_id", "patient_id", "patient_name",
    "doctor_id", "doctor_name", "appointment_date", "appointment_time",
    "department", "reason", "status", "notes", "created_at"]
  notNullCols := ["appointment_id", "patient_id", "patient_name", "doctor_id",
    "doctor_name", "appointment_date", "appointment_time", "department", "reason"]
  uniqueCols := ["id", "appointment_id"]
  boolCols := []
  dtCols := ["created_at"]
  enumCols := [("status", statusValues)]
  defaults := [("status", .venum "scheduled")]

/-- Schema of BillingModel (table billing).  Note that its columns are
bill_id, bill_date, services, total_amount, payment_status and
payment_method; there is no invoice_id, date, items, subtotal, total or
status column. -/
def billingSchema : TableSchema where
  idField := "bill_id"
  columns := ["id", "bill_id", "patient_id", "patient_name",
    "appointment_id", "bill_date", "services", "total_amount",
    "payment_status", "payment_method", "created_at"]
  notNullCols := ["bill_id", "patient_id", "patient_name", "bill_date",
    "services", "total_amount"]
  uniqueCols := ["id", "bill_id"]
  boolCols := []
  dtCols := ["created_at"]
  enumCols := []
  defaults := [("payment_status", .vstr "pending")]

/-- Allowed member values of an Enum typed column, if the column is one. -/
def TableSchema.enumAllowed (sch : TableSchema) (c : String) : Option (List String) :=
  (sch.enumCols.find? (fun p => p.1 == c)).map Prod.snd

/-- Database state: the four tables of db_connector.py, each a list of
rows in rowid order (which is insertion order for autoincremented keys,
the only ones the system produces). -/
structure DBState where
  users : List Record
  patients : List Record
  appointments : List Record
  billing : List Record
deriving DecidableEq, Repr

/-- Empty database. -/
def emptyDB : DBState := ⟨[], [], [], []⟩

/-- Rows of a table by name; unknown names give the empty list (they are
rejected by getModel before any access in every operation). -/
def DBState.get (st : DBState) (t : String) : List Record :=
  if t == "users" then st.users
  else if t == "patients" then st.patients
  else if t == "appointments" then st.appointments
  else if t == "billing" then st.billing
  else []

/-- Replace the rows of a table by name. -/
def DBState.set (st : DBState) (t : String) (rs : List Record) : DBState :=
  if t == "users" then { st with users := rs }
  else if t == "patients" then { st with patients := rs }
  else if t == "appointments" then { st with appointments := rs }
  else if t == "billing" then { st with billing := rs }
  else st

/-- Mirror of DatabaseConnector._get_model: the models dictionary maps
the four table names to their model classes; an unknown table raises
DatabaseException before any query. -/
def getModel (table : String) : Except PyError TableSchema :=
  if table == "users" then .ok usersSchema
  else if table == "patients" then .ok patientsSchema
  else if table == "appointments" then .ok appointmentsSchema
  else if table == "billing" then .ok billingSchema
  else .error (.databaseException ("Unknown table: " ++ table))

/-!
Enum marshaling, mirroring the inline conversions of create, read and
update in db_connector.py.  When the given key is present in the dict
with a string value, the string is converted to the enum member with
that value; a string that names no member raises ValueError, which the
except SQLAlchemyError clauses of the connector do not catch.
Non-string values and absent keys are left untouched.
-/

/-- Conversion of one dict entry to an enum member, as performed by the
statements of the shape: if key in record and isinstance of str then
record at key becomes EnumClass of that string. -/
def convertField (allowed : List String) (key : String) (r : Record) : Except PyError Record :=
  match r.get key with
  | some (.vstr s) =>
      if allowed.contains s then .ok (r.set key (.venum s))
      else .error (.valueError (s ++ " is not a valid enum member"))
  | _ => .ok r

/-- Enum conversions of create and update: the role entry for the users
table and the status entry for the appointments table; other tables are
untouched. -/
def convertEnums (table : String) (r : Record) : Except PyError Record :=
  if table == "users" then convertField roleValues "role" r
  else if table == "appointments" then convertField statusValues "status" r
  else .ok r

/-- Enum conversion of one filter value in read: performed only for the
role key of the users table and the status key of the appointments
table, and only on string values. -/
def convertFilterVal (table key : String) (v : Value) : Except PyError Value :=
  if table == "users" && key == "role" then
    match v with
    | .vstr s =>
        if roleValues.contains s then .ok (.venum s)
        else .error (.valueError (s ++ " is not a valid enum member"))
    | w => .ok w
  else if table == "appointments" && key == "status" then
    match v with
    | .vstr s =>
        if statusValues.contains s then .ok (.venum s)
        else .error (.valueError (s ++ " is not a valid enum member"))
    | w => .ok w
  else .ok v

/-!
Commit-time checks of the backend.  SQLite and the SQLAlchemy type layer
reject, inside session.commit, a value of the wrong shape for an Enum,
Boolean, DateTime or the integer primary key column, a NULL in a
nullable=False column, and a duplicate in a unique column.  All of these
surface as SQLAlchemyError and are re-raised by the connector as
DatabaseException.  Plain String and Text columns accept any scalar
(SQLite dynamic typing), though with TEXT affinity a non-string scalar
is converted to its text form on storage; a Python list is not an
accepted bind value.
-/

/-- Value shape admitted by one column at bind and commit time. -/
def typeOKFor (sch : TableSchema) (c : String) (v : Value) : Bool :=
  match sch.enumAllowed c with
  | some allowed =>
      match v with
      | .vnull => true
      | .venum s => allowed.contains s
      | _ => false
  | none =>
      if c == "id" then
        match v with
        | .vint _ => true
        | _ => false
      else if sch.dtCols.contains c then
        match v with
        | .vnull => true
        | .vdtm _ => true
        | _ => false
      else if sch.boolCols.contains c then
        match v with
        | .vnull => true
        | .vbool _ => true
        | _ => false
      else
        match v with
        | .vitems _ => false
        | .venum _ => false
        | _ => true

/-- All bindings of the row are well shaped for their columns. -/
def rowTypesOK (sch : TableSchema) (nr : Record) : Bool :=
  nr.all (fun p => typeOKFor sch p.1 p.2)

/-- No nullable=False column of the row is NULL. -/
def rowNotNullOK (sch : TableSchema) (nr : Record) : Bool :=
  sch.notNullCols.all (fun c => !(((nr.get c).getD .vnull) == .vnull))

/-- No unique column of the row collides with another row (NULL values
are exempt, as in SQL unique constraints).  Values are compared as
stored: the non-pk unique columns are all String typed, where the
admissible bind values are strings, which TEXT affinity stores
unchanged, so the comparison coincides with the backend's. -/
def rowUniqueOK (sch : TableSchema) (others : List Record) (nr : Record) : Bool :=
  sch.uniqueCols.all (fun c =>
    (((nr.get c).getD .vnull) == .vnull) ||
    others.all (fun r => !(((r.get c).getD .vnull) == ((nr.get c).getD .vnull))))

/-- Commit-time acceptance of a row against the other rows of its table:
bind-level shape checks come first, then the integrity constraints. Any
failure is a SQLAlchemyError, re-raised as DatabaseException. -/
def checkRow (sch : TableSchema) (others : List Record) (nr : Record) : Except PyError Unit :=
  if !(rowTypesOK sch nr) then .error (.databaseException "type mismatch at bind")
  else if !(rowNotNullOK sch nr) then .error (.databaseException "NOT NULL constraint failed")
  else if !(rowUniqueOK sch others nr) then .error (.databaseException "UNIQUE constraint failed")
  else .ok ()

/-- Largest integer value of the id column among the rows (0 when none),
mirroring how SQLite assigns the next autoincremented rowid. -/
def maxPk (rows : List Record) : Int :=
  rows.foldl (fun m r =>
    match (r.get "id").getD .vnull with
    | .vint n => max m n
    | _ => m) 0

/-- Next autoincremented primary key. -/
def nextPk (rows : List Record) : Int := maxPk rows + 1

/-- Value a column receives at insert: the supplied value, or the
python-side column default, or the dynamic datetime.now default for
DateTime columns, or NULL; the primary key receives the next
autoincrement value unless supplied.  The supplied value is recorded as
given, which matches the backend exactly for the string, boolean,
enum-member and NULL values admitted by admissibleVal; the TEXT-affinity
conversion SQLite applies to other scalars bound to the String and Text
columns is not modeled, such binds being outside the hypotheses of every
theorem that asserts what is stored. -/
def matVal (sch : TableSchema) (now : String) (pk : Int) (rc : Record) (c : String) : Value :=
  if c == "id" then (rc.get "id").getD (.vint pk)
  else
    match rc.get c with
    | some v => v
    | none =>
        match (sch.defaults.find? (fun p => p.1 == c)).map Prod.snd with
        | some d => d
        | none => if sch.dtCols.contains c then .vdtm now else .vnull

/-- Full row written at insert: one value per column of the model. -/
def materialize (sch : TableSchema) (now : String) (pk : Int) (rc : Record) : Record :=
  sch.columns.map (fun c => (c, matVal sch now pk rc c))

/-- Mirror of DatabaseConnector.create.  The now argument models the
clock read by the datetime.now column default.  Unknown table:
DatabaseException.  Invalid enum string: ValueError (uncaught).  A dict
key that is not a column of the model: TypeError from the model
constructor (uncaught).  Commit failure: DatabaseException wrapping the
SQLAlchemyError text.  On success the row is appended and True is
returned. -/
def create (now : String) (table : String) (record : Record) (st : DBState) :
    Except PyError (Bool × DBState) := do
  let sch ← getModel table
  let rc ← convertEnums table record
  match rc.find? (fun p => !(sch.columns.contains p.1)) with
  | some p => .error (.typeError (p.1 ++ " is an invalid keyword argument"))
  | none =>
    let old := st.get table
    let nr := materialize sch now (nextPk old) rc
    match checkRow sch old nr with
    | .error e => .error (.databaseException ("Failed to create record: " ++ e.msg))
    | .ok _ => .ok (true, st.set table (old ++ [nr]))

/-- Filter construction of read: each filter entry whose key is an
attribute of the model is converted (enum columns only) and retained;
entries with unknown keys are silently skipped by the hasattr guard. -/
def buildFilters (table : String) (cols : List String) :
    List (String × Value) → Except PyError (List (String × Value))
  | [] => .ok []
  | kv :: rest =>
      if cols.contains kv.1 then do
        let v ← convertFilterVal table kv.1 kv.2
        let r ← buildFilters table cols rest
        .ok ((kv.1, v) :: r)
      else buildFilters table cols rest

/-- Conjunction of equality filters, as the chained query.filter calls.
Value equality on vnull models the IS NULL comparison SQLAlchemy emits
for a None filter value. -/
def matchesFilters (conds : List (String × Value)) (r : Record) : Bool :=
  conds.all (fun c => ((r.get c.1).getD .vnull) == c.2)

/-- Output rendering of one stored value in _model_to_dict: enum members
as their value string, datetimes as their isoformat string, anything
else unchanged. -/
def outView : Value → Value
  | .venum s => .vstr s
  | .vdtm s => .vstr s
  | v => v

/-- Mirror of DatabaseConnector._model_to_dict: one entry per column in
column order, skipping the internal id. -/
def model_to_dict (sch : TableSchema) (r : Record) : Record :=
  (sch.columns.filter (fun c => !(c == "id"))).map
    (fun c => (c, outView ((r.get c).getD .vnull)))

/-- Mirror of DatabaseConnector.read. -/
def read (table : String) (filters : List (String × Value)) (st : DBState) :
    Except PyError (List Record) := do
  let sch ← getModel table
  let conds ← buildFilters table sch.columns filters
  .ok (((st.get table).filter (matchesFilters conds)).map (model_to_dict sch))

/-- First row satisfying the predicate, split out of the list, as the
query.first call of update and delete against rowid order. -/
def splitAtFirst (p : Record → Bool) : List Record → Option (List Record × Record × List Record)
  | [] => none
  | r :: rs =>
      if p r then some ([], r, rs)
      else (splitAtFirst p rs).map (fun t => (r :: t.1, t.2.1, t.2.2))

/-- Application of the updates dict to the matched row: setattr for each
entry whose key is an attribute of the model, entries with other keys
silently ignored by the hasattr guard.  Written values are recorded as
given; as in matVal, this is exact for the values admissibleVal admits,
and the TEXT-affinity text conversion of other scalars is outside the
hypotheses of the update theorems. -/
def applyUpdates (cols : List String) (rec : Record) (uc : List (String × Value)) : Record :=
  uc.foldl (fun r kv => if cols.contains kv.1 then r.set kv.1 kv.2 else r) rec

/-- Mirror of DatabaseConnector.update.  Enum conversion of the updates
dict happens before the lookup, so an invalid enum string raises
ValueError even when no row matches.  The getattr on the model with the
id_field name raises AttributeError when the name is not an attribute of
the model (uncaught by the except SQLAlchemyError clause).  A missing
row returns False with no write; a found row is mutated and committed,
and commit failures surface as DatabaseException. -/
def update (table record_id id_field : String) (updates : List (String × Value))
    (st : DBState) : Except PyError (Bool × DBState) := do
  let sch ← getModel table
  let uc ← convertEnums table updates
  if !(sch.columns.contains id_field) then
    .error (.attributeError ("type object has no attribute " ++ id_field))
  else
    match splitAtFirst (fun r => ((r.get id_field).getD .vnull) == .vstr record_id) (st.get table) with
    | none => .ok (false, st)
    | some (pre, rec, post) =>
      let rec2 := applyUpdates sch.columns rec uc
      match checkRow sch (pre ++ post) rec2 with
      | .error e => .error (.databaseException ("Failed to update record: " ++ e.msg))
      | .ok _ => .ok (true, st.set table (pre ++ rec2 :: post))

/-- Mirror of DatabaseConnector.delete. -/
def delete (table record_id id_field : String) (st : DBState) :
    Except PyError (Bool × DBState) := do
  let sch ← getModel table
  if !(sch.columns.contains id_field) then
    .error (.attributeError ("type object has no attribute " ++ id_field))
  else
    match splitAtFirst (fun r => ((r.get id_field).getD .vnull) == .vstr record_id) (st.get table) with
    | none => .ok (false, st)
    | some (pre, _, post) => .ok (true, st.set table (pre ++ post))

/-!
String helpers used by get_next_id, modelled on character lists so that
every step is kernel-computable: the Python str.startswith test, the
str.replace of all occurrences of the prefix by the empty string, the
int constructor on a decimal literal with optional sign, and the
str.zfill padding to three digits.
-/

/-- Truthiness of a value, for the short-circuit test on the identifier
before startswith is called. -/
def truthy : Value → Bool
  | .vnull => false
  | .vstr s => !(s.toList.isEmpty)
  | .vint n => !(n == 0)
  | .vnum q => !(q == 0)
  | .vbool b => b
  | .vdtm _ => true
  | .venum _ => true
  | .vitems l => !(l.isEmpty)

/-- Deletion of every non-overlapping occurrence of the pattern, left to
right, from the character list.  The fuel argument makes the recursion
structural (each step consumes at least one character, so any fuel of at
least the list length is exact); it exists only so that the function
reduces inside the kernel. -/
def delOcc (p : Char) (ps : List Char) : Nat → List Char → List Char
  | 0, _ => []
  | _, [] => []
  | fuel + 1, c :: rest =>
      if (p :: ps).isPrefixOf (c :: rest) then delOcc p ps fuel (rest.drop ps.length)
      else c :: delOcc p ps fuel rest

/-- Python str.replace of the pattern by the empty string (the empty
pattern leaves the string unchanged when the replacement is empty). -/
def pyStrDelete (s pat : String) : String :=
  match pat.toList with
  | [] => s
  | p :: ps => String.mk (delOcc p ps s.toList.length s.toList)

/-- Python str.startswith. -/
def pyStartsWith (s pre : String) : Bool :=
  pre.toList.isPrefixOf s.toList

/-- Value of a decimal digit character. -/
def digitVal (c : Char) : Nat := c.toNat - 48

/-- Natural number denoted by a digit list. -/
def digitsToNat (l : List Char) : Nat :=
  l.foldl (fun n c => n * 10 + digitVal c) 0

/-- Python int constructor on a string: optional single sign followed by
at least one decimal digit; anything else raises ValueError, modelled as
none (the caller catches ValueError and skips the record).  The
whitespace and underscore tolerance of int is not modelled; no
identifier the system generates contains either. -/
def pyIntOfString? (s : String) : Option Int :=
  match s.toList with
  | [] => none
  | '-' :: rest =>
      if !rest.isEmpty && rest.all Char.isDigit then some (-(digitsToNat rest : Int))
      else none
  | '+' :: rest =>
      if !rest.isEmpty && rest.all Char.isDigit then some ((digitsToNat rest : Int))
      else none
  | l =>
      if l.all Char.isDigit then some ((digitsToNat l : Int)) else none

/-- Decimal rendering of a nonnegative integer, as str does. -/
def intToStr (i : Int) : String :=
  if i < 0 then "-" ++ String.mk (Nat.toDigits 10 (-i).toNat)
  else String.mk (Nat.toDigits 10 i.toNat)

/-- Python str.zfill 3: pad with leading zeros to length three. -/
def zfill3 (s : String) : String :=
  if s.toList.length ≥ 3 then s
  else String.mk (List.replicate (3 - s.toList.length) '0') ++ s

/-- Numeric contribution of one identifier value in get_next_id: the
record is skipped when the value is falsy or does not start with the
prefix, every occurrence of the prefix is deleted from the identifier,
and a remainder that int rejects is skipped by the except ValueError
clause; a truthy value that is not a string raises AttributeError at the
startswith call (uncaught). -/
def suffixVal (pre : String) (v : Value) : Except PyError (Option Int) :=
  if truthy v then
    match v with
    | .vstr s =>
        if pyStartsWith s pre then .ok (pyIntOfString? (pyStrDelete s pre))
        else .ok none
    | _ => .error (.attributeError "value has no attribute startswith")
  else .ok none

/-- Mirror of the id_field_map dictionary inside get_next_id. -/
def id_field_map (table : String) : Option String :=
  if table == "users" then some "user_id"
  else if table == "patients" then some "patient_id"
  else if table == "appointments" then some "appointment_id"
  else if table == "billing" then some "bill_id"
  else none

/-- Body of get_next_id after the model and identifier field have been
resolved: an empty table short-circuits to the prefix followed by 001;
otherwise every record is scanned, keeping the running maximum (started
at 0) of the parsed identifiers, and the prefix followed by the
zero-filled successor of the maximum is returned. -/
def get_next_id_core (idf pfx : String) (records : List Record) :
    Except PyError String :=
  if records.isEmpty then .ok (pfx ++ "001")
  else do
    let m ← records.foldlM (fun acc r => do
      match ← suffixVal pfx ((r.get idf).getD .vnull) with
      | some n => pure (max acc n)
      | none => pure acc) (0 : Int)
    .ok (pfx ++ zfill3 (intToStr (m + 1)))

/-- Mirror of DatabaseConnector.get_next_id.  A table name outside the
id_field_map (unreachable after getModel) short-circuits to the prefix
followed by 001. -/
def get_next_id (table pfx : String) (st : DBState) : Except PyError String := do
  let _sch ← getModel table
  match id_field_map table with
  | none => .ok (pfx ++ "001")
  | some idf => get_next_id_core idf pfx (st.get table)

/-!
Billing engine (src/app/services/billing_engine.py).  Floats are
modelled by rationals; the BillingException wrapper of the engine is its
own error type.
-/

/-- Error raised by BillingEngine methods after catching any exception
from the store. -/
inductive BillingError where
  | billingException (msg : String)
deriving DecidableEq, Repr

/-- Mirror of BillingItem: description, quantity and unit price. -/
structure BillingItem where
  description : String
  quantity : Int
  unit_price : ℚ
deriving DecidableEq, Repr

/-- Mirror of the BillingItem.total property. -/
def BillingItem.total (i : BillingItem) : ℚ := i.quantity * i.unit_price

/-- Mirror of BillingItem.to_dict. -/
def BillingItem.to_dict (i : BillingItem) : ItemD :=
  ⟨i.description, i.quantity, i.unit_price, i.total⟩

/-- Mirror of Invoice: identifier, patient reference, line items, date
string, discount and tax percentages, and lifecycle status. -/
structure Invoice where
  invoice_id : String
  patient_id : String
  patient_name : String
  items : List BillingItem
  date : String
  discount_percent : ℚ
  tax_percent : ℚ
  status : String
deriving DecidableEq, Repr

/-- Mirror of Invoice.add_item. -/
def Invoice.add_item (v : Invoice) (description : String) (quantity : Int)
    (unit_price : ℚ) : Invoice :=
  { v with items := v.items ++ [⟨description, quantity, unit_price⟩] }

/-- Mirror of the Invoice.subtotal property. -/
def Invoice.subtotal (v : Invoice) : ℚ :=
  (v.items.map BillingItem.total).sum

/-- Mirror of the Invoice.discount_amount property. -/
def Invoice.discount_amount (v : Invoice) : ℚ :=
  v.subtotal * (v.discount_percent / 100)

/-- Mirror of the Invoice.tax_amount property. -/
def Invoice.tax_amount (v : Invoice) : ℚ :=
  (v.subtotal - v.discount_amount) * (v.tax_percent / 100)

/-- Mirror of the Invoice.total property. -/
def Invoice.total (v : Invoice) : ℚ :=
  v.subtotal - v.discount_amount + v.tax_amount

/-- Mirror of Invoice.to_dict: the flattened invoice document, with the
line items as an embedded list of item dictionaries and every aggregate
frozen at its computed value. -/
def Invoice.to_dict (v : Invoice) : Record :=
  [("invoice_id", .vstr v.invoice_id),
   ("patient_id", .vstr v.patient_id),
   ("patient_name", .vstr v.patient_name),
   ("date", .vstr v.date),
   ("items", .vitems (v.items.map BillingItem.to_dict)),
   ("subtotal", .vnum v.subtotal),
   ("discount_percent", .vnum v.discount_percent),
   ("discount_amount", .vnum v.discount_amount),
   ("tax_percent", .vnum v.tax_percent),
   ("tax_amount", .vnum v.tax_amount),
   ("total", .vnum v.total),
   ("status", .vstr v.status)]

namespace BillingEngine

/-- Mirror of the BillingEngine.SERVICES catalog: service code mapped to
display name and price. -/
def SERVICES : List (String × String × ℚ) :=
  [("consultation", "Doctor Consultation", 500),
   ("checkup", "General Checkup", 300),
   ("blood_test", "Blood Test", 400),
   ("xray", "X-Ray", 800),
   ("ultrasound", "Ultrasound", 1200),
   ("mri", "MRI Scan", 5000),
   ("ct_scan", "CT Scan", 4000),
   ("ecg", "ECG", 250),
   ("vaccination", "Vaccination", 150),
   ("minor_surgery", "Minor Surgery", 10000),
   ("admission_fee", "Hospital Admission", 2000),
   ("room_charge", "Room Charge per day", 1500),
   ("medicine", "Medicines", 0)]

/-- Mirror of BillingEngine.get_service_price: catalog lookup, none for
an unknown code. -/
def get_service_price (service_code : String) : Option (String × ℚ) :=
  (SERVICES.find? (fun p => p.1 == service_code)).map Prod.snd

/-- Mirror of BillingEngine.save_invoice: flatten the invoice through
Invoice.to_dict, hand it to the store create, return True on success and
wrap any exception into BillingException. -/
def save_invoice (now : String) (invoice : Invoice) (st : DBState) :
    Except BillingError (Bool × DBState) :=
  match create now "billing" invoice.to_dict st with
  | .ok (_, st2) => .ok (true, st2)
  | .error e => .error (.billingException ("Failed to save invoice: " ++ e.msg))

/-- Mirror of BillingEngine.get_invoice: filtered read on the key
invoice_id, first result or none. -/
def get_invoice (invoice_id : String) (st : DBState) :
    Except BillingError (Option Record) :=
  match read "billing" [("invoice_id", .vstr invoice_id)] st with
  | .ok invoices => .ok invoices.head?
  | .error e => .error (.billingException ("Failed to retrieve invoice: " ++ e.msg))

/-- Mirror of BillingEngine.mark_invoice_paid: store update of the
status field located by invoice_id, any exception wrapped into
BillingException. -/
def mark_invoice_paid (invoice_id : String) (st : DBState) :
    Except BillingError (Bool × DBState) :=
  match update "billing" invoice_id "invoice_id" [("status", .vstr "paid")] st with
  | .ok r => .ok r
  | .error e => .error (.billingException ("Failed to update invoice status: " ++ e.msg))

/-- Mirror of BillingEngine.calculate_appointment_bill: start from zero,
add the catalog consultation price when the flag is set, then add the
catalog price of each known test code, ignoring unknown codes.  The
Python default of None for the tests argument behaves as the empty
list. -/
def calculate_appointment_bill (consultation : Bool) (tests : List String) : ℚ :=
  let t0 : ℚ := 0
  let t1 := if consultation then t0 + 500 else t0
  tests.foldl (fun tot code =>
    match get_service_price code with
    | some s => tot + s.2
    | none => tot) t1

end BillingEngine

/-!
Association list lemmas for Record.
-/

theorem Record.get_nil (k : String) : Record.get [] k = none := rfl

theorem Record.keys_nil : Record.keys [] = [] := rfl

theorem Record.keys_cons (p : String × Value) (r : Record) :
    Record.keys (p :: r) = p.1 :: r.keys := rfl

theorem Record.get_cons (p : String × Value) (r : Record) (k : String) :
    Record.get (p :: r) k = if p.1 = k then some p.2 else Record.get r k := by
  simp only [Record.get, List.find?]
  by_cases h : p.1 = k
  · simp [h]
  · have hb : (p.1 == k) = false := by simp [h]
    simp [hb, h]

theorem Record.set_cons (p : String × Value) (r : Record) (k : String) (v : Value) :
    Record.set (p :: r) k v =
      if p.1 = k then (k, v) :: r else p :: Record.set r k v := by
  simp only [Record.set]
  by_cases h : p.1 = k
  · simp [h]
  · have hb : (p.1 == k) = false := by simp [h]
    simp [hb, h]

theorem Record.get_set_self (r : Record) (k : String) (v : Value) :
    (Record.set r k v).get k = some v := by
  induction r with
  | nil => simp [Record.set, Record.get_cons]
  | cons p rest ih =>
      rw [Record.set_cons]
      by_cases h : p.1 = k
      · simp [h, Record.get_cons]
      · simp [h, Record.get_cons, ih]

theorem Record.get_set_ne (r : Record) (k k2 : String) (v : Value) (h : k ≠ k2) :
    (Record.set r k v).get k2 = r.get k2 := by
  induction r with
  | nil => simp [Record.set, Record.get_cons, Record.get_nil, h]
  | cons p rest ih =>
      rw [Record.set_cons]
      by_cases hp : p.1 = k
      · rw [if_pos hp, Record.get_cons, Record.get_cons]
        have h2 : p.1 ≠ k2 := hp ▸ h
        simp [h, h2]
      · rw [if_neg hp, Record.get_cons, Record.get_cons, ih]

theorem Record.keys_set_of_mem (r : Record) (k : String) (v : Value)
    (h : k ∈ r.keys) : (Record.set r k v).keys = r.keys := by
  induction r with
  | nil => simp [Record.keys_nil] at h
  | cons p rest ih =>
      rw [Record.set_cons]
      by_cases hp : p.1 = k
      · rw [if_pos hp, Record.keys_cons, Record.keys_cons, hp]
      · rw [if_neg hp, Record.keys_cons, Record.keys_cons]
        have hmem : k ∈ Record.keys rest := by
          rw [Record.keys_cons, List.mem_cons] at h
          rcases h with h1 | h1
          · exact absurd h1.symm hp
          · exact h1
        rw [ih hmem]

theorem Record.get_eq_none_of_not_mem (r : Record) (k : String)
    (h : k ∉ r.keys) : r.get k = none := by
  induction r with
  | nil => rfl
  | cons p rest ih =>
      rw [Record.keys_cons, List.mem_cons] at h
      push_neg at h
      rw [Record.get_cons, if_neg (fun he => h.1 he.symm)]
      exact ih h.2

theorem Record.get_some_mem (r : Record) (k : String) (v : Value)
    (h : r.get k = some v) : (k, v) ∈ r := by
  induction r with
  | nil => simp [Record.get_nil] at h
  | cons p rest ih =>
      rw [Record.get_cons] at h
      by_cases hp : p.1 = k
      · rw [if_pos hp] at h
        injection h with h2
        have : (k, v) = p := by
          cases p
          simp_all
        rw [this]
        exact List.mem_cons_self _ _
      · rw [if_neg hp] at h
        exact List.mem_cons_of_mem _ (ih h)

theorem Record.get_of_mem_nodup (r : Record) (k : String) (v : Value)
    (hnd : r.keys.Nodup) (h : (k, v) ∈ r) : r.get k = some v := by
  induction r with
  | nil => simp at h
  | cons p rest ih =>
      rw [Record.keys_cons, List.nodup_cons] at hnd
      rw [Record.get_cons]
      rcases List.mem_cons.mp h with h1 | h1
      · rw [← h1]
        simp
      · have hk : p.1 ≠ k := by
          intro he
          apply hnd.1
          rw [he]
          exact List.mem_map.mpr ⟨(k, v), h1, rfl⟩
        rw [if_neg hk]
        exact ih hnd.2 h1

theorem Record.get_map_keys (l : List String) (f : String → Value) (k : String) :
    Record.get (l.map (fun c => (c, f c))) k = if k ∈ l then some (f k) else none := by
  induction l with
  | nil => simp [Record.get_nil]
  | cons c rest ih =>
      rw [List.map_cons, Record.get_cons]
      by_cases h : c = k
      · simp [h]
      · simp only [h, if_false]
        rw [ih]
        simp [List.mem_cons, Ne.symm h]

/-!
Lemmas for splitAtFirst.
-/

theorem splitAtFirst_eq_none (p : Record → Bool) (l : List Record)
    (h : ∀ r ∈ l, p r = false) : splitAtFirst p l = none := by
  induction l with
  | nil => rfl
  | cons r rest ih =>
      have hr := h r (List.mem_cons_self r rest)
      simp [splitAtFirst, hr, ih (fun x hx => h x (List.mem_cons_of_mem r hx))]

theorem splitAtFirst_spec (p : Record → Bool) (pre : List Record) (rec : Record)
    (post : List Record) (hpre : ∀ r ∈ pre, p r = false) (hrec : p rec = true) :
    splitAtFirst p (pre ++ rec :: post) = some (pre, rec, post) := by
  induction pre with
  | nil => simp [splitAtFirst, hrec]
  | cons r rest ih =>
      have hr := hpre r (List.mem_cons_self r rest)
      simp [splitAtFirst, hr,
        ih (fun x hx => hpre x (List.mem_cons_of_mem r hx))]

/-!
Claim C2: invoice arithmetic.
-/

/-- Worked example of the claim: one item of quantity 2 and unit price
100, discount 10 percent and tax 5 percent. -/
def exampleInvoice : Invoice :=
  { invoice_id := "INV001", patient_id := "PAT001", patient_name := "John",
    items := [⟨"X", 2, 100⟩], date := "2026-10-12",
    discount_percent := 10, tax_percent := 5, status := "pending" }

/-- Invoice with zero items from the claim. -/
def zeroItemInvoice : Invoice :=
  { invoice_id := "INV002", patient_id := "PAT001", patient_name := "John",
    items := [], date := "2026-10-12",
    discount_percent := 10, tax_percent := 5, status := "pending" }

/-- C2: for every invoice state, subtotal is the sum over items of
quantity times unit price, discount amount is subtotal times the
discount fraction, tax amount is the discounted subtotal times the tax
fraction, and total is subtotal minus discount plus tax; on the worked
example the aggregates are 200, 20, 9 and 189, and the zero-item
invoice has all four aggregates equal to 0. -/
theorem invoice_aggregates_spec (v : Invoice) :
    (v.subtotal = (v.items.map (fun i => (i.quantity : ℚ) * i.unit_price)).sum ∧
     v.discount_amount = v.subtotal * v.discount_percent / 100 ∧
     v.tax_amount = (v.subtotal - v.discount_amount) * v.tax_percent / 100 ∧
     v.total = v.subtotal - v.discount_amount + v.tax_amount) ∧
    ((exampleInvoice.items.map BillingItem.total) = [200] ∧
     exampleInvoice.subtotal = 200 ∧
     exampleInvoice.discount_amount = 20 ∧
     exampleInvoice.tax_amount = 9 ∧
     exampleInvoice.total = 189) ∧
    (zeroItemInvoice.subtotal = 0 ∧
     zeroItemInvoice.discount_amount = 0 ∧
     zeroItemInvoice.tax_amount = 0 ∧
     zeroItemInvoice.total = 0) := by
  refine ⟨⟨rfl, ?_, ?_, rfl⟩, ?_, ?_⟩
  · rw [Invoice.discount_amount, mul_div_assoc]
  · rw [Invoice.tax_amount, mul_div_assoc]
  · refine ⟨?_, ?_, ?_, ?_, ?_⟩ <;> norm_num [exampleInvoice, Invoice.subtotal,
      Invoice.discount_amount, Invoice.tax_amount, Invoice.total, BillingItem.total]
  · refine ⟨?_, ?_, ?_, ?_⟩ <;> norm_num [zeroItemInvoice, Invoice.subtotal,
      Invoice.discount_amount, Invoice.tax_amount, Invoice.total]

/-!
Claim C9: appointment bill pricing.
-/

theorem calculate_bill_foldl (t0 : ℚ) (tests : List String) :
    tests.foldl (fun tot code =>
      match BillingEngine.get_service_price code with
      | some s => tot + s.2
      | none => tot) t0 =
    t0 + (tests.map (fun code =>
      (BillingEngine.get_service_price code).elim 0 Prod.snd)).sum := by
  induction tests generalizing t0 with
  | nil => simp
  | cons c rest ih =>
      rw [List.foldl_cons, List.map_cons, List.sum_cons, ih]
      cases h : BillingEngine.get_service_price c <;> simp [h] <;> ring

/-- C9: for every consultation flag and list of test codes, the
appointment bill equals the consultation catalog price (500) when the
flag is set, plus the sum of catalog prices over the codes, each code
absent from the catalog contributing 0 and raising no error. -/
theorem calculate_appointment_bill_spec (consultation : Bool) (tests : List String) :
    BillingEngine.calculate_appointment_bill consultation tests =
      (if consultation then (500 : ℚ) else 0) +
        (tests.map (fun code =>
          (BillingEngine.get_service_price code).elim 0 Prod.snd)).sum := by
  rw [BillingEngine.calculate_appointment_bill, calculate_bill_foldl]
  cases consultation <;> simp

/-!
Claim C4: mark_invoice_paid.  The billing table has no invoice_id and no
status column, so the getattr on the model class inside
DatabaseConnector.update raises AttributeError on every call, which
mark_invoice_paid converts to BillingException; the call never returns a
boolean and no status field is ever written.
-/

/-- C4 evidence: for every invoice id and every database state,
mark_invoice_paid raises BillingException (wrapping the AttributeError
of the getattr on the nonexistent invoice_id attribute of the billing
model) instead of returning true; in particular no state with a
persisted invoice is ever marked paid. -/
theorem mark_invoice_paid_always_raises (invoice_id : String) (st : DBState) :
    BillingEngine.mark_invoice_paid invoice_id st =
      .error (.billingException
        "Failed to update invoice status: type object has no attribute invoice_id") := rfl

/-!
Claim C8: save_invoice.  The keys of Invoice.to_dict (invoice_id, date,
items, subtotal, discount_percent, discount_amount, tax_percent,
tax_amount, total, status) are not columns of the billing model, whose
schema is bill_id, bill_date, services, total_amount, payment_status and
payment_method, so the model constructor inside
DatabaseConnector.create raises TypeError on every call, which
save_invoice converts to BillingException; no invoice document is ever
persisted by this method.
-/

/-- C8 evidence: for every clock value, every staged invoice and every
database state, save_invoice raises BillingException (wrapping the
TypeError of the billing model constructor on the invoice_id keyword)
instead of returning success; the flattened invoice is never written. -/
theorem save_invoice_always_raises (now : String) (invoice : Invoice) (st : DBState) :
    BillingEngine.save_invoice now invoice st =
      .error (.billingException
        "Failed to save invoice: invoice_id is an invalid keyword argument") := rfl

/-!
Claim C5: unknown filter fields in read.  The hasattr guard of
DatabaseConnector.read silently skips any filter key that is not an
attribute of the model, so read behaves exactly as if those entries were
absent and returns the records matching the remaining filters; it does
not raise.  An unknown table, by contrast, is rejected by _get_model
with a DatabaseException.
-/

/-- Filter entries whose key survives the hasattr guard of read. -/
def knownFilters (table : String) (filters : List (String × Value)) :
    List (String × Value) :=
  match getModel table with
  | .ok sch => filters.filter (fun kv => sch.columns.contains kv.1)
  | .error _ => filters

theorem buildFilters_skip_unknown (table : String) (cols : List String)
    (filters : List (String × Value)) :
    buildFilters table cols filters =
      buildFilters table cols (filters.filter (fun kv => cols.contains kv.1)) := by
  induction filters with
  | nil => rfl
  | cons kv rest ih =>
      by_cases h : cols.contains kv.1
      · simp only [buildFilters, h, List.filter_cons, if_pos h, ih]
      · simp only [buildFilters, h, List.filter_cons, if_neg h, ih]
        rw [if_neg (by simp [h]), if_neg (by simp [h])]

/-- One patient on file for the worked instance of C5. -/
def onePatientDB : DBState :=
  { emptyDB with patients := [[("patient_id", Value.vstr "PAT001")]] }

/-- C5 evidence: for every table, every filter dict and every state,
read behaves exactly as read with the unknown filter keys removed (they
are silently ignored, never rejected); concretely, a read of the
patients table filtered on the unknown key nonexistent_field returns the
stored record instead of raising; only an unknown table is rejected with
DatabaseException. -/
theorem read_ignores_unknown_filter_fields :
    (∀ (table : String) (filters : List (String × Value)) (st : DBState),
      read table filters st = read table (knownFilters table filters) st) ∧
    read "patients" [("nonexistent_field", .vstr "x")] onePatientDB =
      .ok [[("patient_id", .vstr "PAT001"), ("first_name", .vnull),
            ("last_name", .vnull), ("date_of_birth", .vnull), ("gender", .vnull),
            ("phone", .vnull), ("email", .vnull), ("address", .vnull),
            ("blood_group", .vnull), ("emergency_contact", .vnull),
            ("registration_date", .vnull), ("is_active", .vnull),
            ("created_at", .vnull)]] ∧
    read "nosuch" [("patient_id", .vstr "x")] onePatientDB =
      .error (.databaseException "Unknown table: nosuch") := by
  refine ⟨?_, rfl, rfl⟩
  intro table filters st
  unfold read knownFilters
  cases h : getModel table with
  | error e => rfl
  | ok sch =>
      show Except.bind (buildFilters table sch.columns filters) _ =
        Except.bind (buildFilters table sch.columns
          (filters.filter (fun kv => sch.columns.contains kv.1))) _
      rw [← buildFilters_skip_unknown]

/-- C5 counterexample to the claim as stated: with one patient on file,
a read filtered on a key that is not a field of the schema returns that
record (no DatabaseException is raised and records are returned). -/
theorem read_unknown_filter_counterexample :
    read "patients" [("nonexistent_field", .vstr "x")] onePatientDB =
      .ok [[("patient_id", .vstr "PAT001"), ("first_name", .vnull),
            ("last_name", .vnull), ("date_of_birth", .vnull), ("gender", .vnull),
            ("phone", .vnull), ("email", .vnull), ("address", .vnull),
            ("blood_group", .vnull), ("emergency_contact", .vnull),
            ("registration_date", .vnull), ("is_active", .vnull),
            ("created_at", .vnull)]] ∧
    ∀ e : PyError, read "patients" [("nonexistent_field", .vstr "x")] onePatientDB ≠
      .error e := by
  refine ⟨rfl, ?_⟩
  intro e h
  rw [(rfl : read "patients" [("nonexistent_field", .vstr "x")] onePatientDB =
    .ok [[("patient_id", .vstr "PAT001"), ("first_name", .vnull),
          ("last_name", .vnull), ("date_of_birth", .vnull), ("gender", .vnull),
          ("phone", .vnull), ("email", .vnull), ("address", .vnull),
          ("blood_group", .vnull), ("emergency_contact", .vnull),
          ("registration_date", .vnull), ("is_active", .vnull),
          ("created_at", .vnull)]])] at h
  exact Except.noConfusion h

/-!
Claim C6: update and delete on a nonexistent id.  The code returns False
and leaves the state untouched when no row matches, except that the enum
conversion of the updates dict runs before the lookup: an invalid enum
string for users.role or appointments.status raises ValueError even when
the target row does not exist.
-/

/-- C6 theorem: for every known table, every id value matching no record
on a model attribute id_field, and every updates dict whose enum
conversion succeeds, update returns False and the whole database state
is unchanged; delete likewise returns False and changes nothing. -/
theorem update_delete_missing_id (table : String) (sch : TableSchema)
    (hT : getModel table = .ok sch) (v id_field : String)
    (updates : List (String × Value)) (st : DBState)
    (hfield : sch.columns.contains id_field = true)
    (hconv : (convertEnums table updates).isOk = true)
    (hmiss : ∀ r ∈ st.get table, ((r.get id_field).getD .vnull) ≠ .vstr v) :
    update table v id_field updates st = .ok (false, st) ∧
    delete table v id_field st = .ok (false, st) := by
  obtain ⟨uc, huc⟩ : ∃ uc, convertEnums table updates = .ok uc := by
    cases h : convertEnums table updates with
    | ok uc => exact ⟨uc, rfl⟩
    | error e => rw [h] at hconv; exact absurd hconv (by simp [Except.isOk, Except.toBool])
  have hsplit : splitAtFirst
      (fun r => ((r.get id_field).getD .vnull) == .vstr v) (st.get table) = none := by
    apply splitAtFirst_eq_none
    intro r hr
    simpa using hmiss r hr
  constructor
  · unfold update
    rw [hT]
    show Except.bind (convertEnums table updates) _ = _
    rw [huc]
    show (if !(sch.columns.contains id_field) then _ else _) = _
    rw [hfield]
    show (match splitAtFirst _ (st.get table) with
      | none => Except.ok (false, st)
      | some (pre, rec, post) => _) = _
    rw [hsplit]
  · unfold delete
    rw [hT]
    show (if !(sch.columns.contains id_field) then _ else _) = _
    rw [hfield]
    show (match splitAtFirst _ (st.get table) with
      | none => Except.ok (false, st)
      | some (pre, rec, post) => _) = _
    rw [hsplit]

/-- C6 witness: on the empty database, updating and deleting the
nonexistent user USR999 by user_id returns False with the state
unchanged. -/
theorem update_delete_missing_id_witness :
    update "users" "USR999" "user_id" [("full_name", .vstr "X")] emptyDB =
      .ok (false, emptyDB) ∧
    delete "users" "USR999" "user_id" emptyDB = .ok (false, emptyDB) :=
  update_delete_missing_id "users" usersSchema rfl "USR999" "user_id"
    [("full_name", .vstr "X")] emptyDB rfl rfl (by intro r hr; simp [emptyDB, DBState.get] at hr)

/-- C6 counterexample to the claim as stated: an updates dict carrying
an invalid enum string for users.role makes update on a nonexistent id
raise ValueError (uncaught by the except SQLAlchemyError clause of the
connector) instead of returning False. -/
theorem update_missing_id_counterexample :
    update "users" "USR999" "user_id" [("role", .vstr "bogus")] emptyDB =
      .error (.valueError "bogus is not a valid enum member") ∧
    ∀ st2 : DBState, update "users" "USR999" "user_id" [("role", .vstr "bogus")] emptyDB ≠
      .ok (false, st2) := by
  refine ⟨rfl, ?_⟩
  intro st2 h
  rw [(rfl : update "users" "USR999" "user_id" [("role", .vstr "bogus")] emptyDB =
    .error (.valueError "bogus is not a valid enum member"))] at h
  exact Except.noConfusion h

/-!
Marshaling specification used to state the create, update and round-trip
theorems: the value actually stored for a supplied dict entry, as a pure
function of the table, the key and the value.
-/

/-- String to enum-member conversion shape. -/
def strToEnum : Value → Value
  | .vstr s => .venum s
  | w => w

/-- Stored form of a supplied value: the enum conversion applies exactly
to the role key of the users table and the status key of the
appointments table, and only to string values; everything else is
stored as given. -/
def inVal (table k : String) (v : Value) : Value :=
  if (table == "users" && k == "role") || (table == "appointments" && k == "status")
  then strToEnum v else v

/-- Value shapes a caller may supply for a column so that the insert or
update is accepted and round-trips as given: a valid member string (or
NULL) for an enum column, NULL for a datetime column, a boolean or NULL
for a boolean column, and a string or NULL for the rest.  Every
remaining column of the four models is a String or Text column, and
those have SQLite TEXT affinity: a non-string scalar bound to one (an
int, float or bool) is accepted but stored in its text form, so it is
read back as a different value and can collide with its text form under
a unique constraint; such binds therefore fall outside this predicate
rather than round-tripping unchanged. -/
def admissibleVal (sch : TableSchema) (c : String) (v : Value) : Bool :=
  match sch.enumAllowed c with
  | some allowed =>
      match v with
      | .vstr s => allowed.contains s
      | .vnull => true
      | _ => false
  | none =>
      if sch.dtCols.contains c then v == .vnull
      else if sch.boolCols.contains c then
        match v with
        | .vbool _ => true
        | .vnull => true
        | _ => false
      else
        match v with
        | .vstr _ => true
        | .vnull => true
        | _ => false

/-!
Generic association list and marshaling lemmas.
-/

theorem Record.keys_map_entry (u : Record) (g : String → Value → Value) :
    Record.keys (u.map (fun kv => (kv.1, g kv.1 kv.2))) = u.keys := by
  induction u with
  | nil => rfl
  | cons p rest ih => rw [List.map_cons, Record.keys_cons, Record.keys_cons, ih]

theorem Record.get_map_entry (u : Record) (g : String → Value → Value) (k : String) :
    Record.get (u.map (fun kv => (kv.1, g kv.1 kv.2))) k = (u.get k).map (g k) := by
  induction u with
  | nil => rfl
  | cons p rest ih =>
      rw [List.map_cons, Record.get_cons, Record.get_cons]
      by_cases h : p.1 = k
      · rw [if_pos h, if_pos h]
        show some (g p.1 p.2) = some (g k p.2)
        rw [h]
      · rw [if_neg h, if_neg h, ih]

theorem map_eq_self_of (u : Record) (f : String × Value → String × Value)
    (h : ∀ kv ∈ u, f kv = kv) : u.map f = u := by
  induction u with
  | nil => rfl
  | cons p rest ih =>
      rw [List.map_cons, h p (List.mem_cons_self p rest),
        ih (fun kv hkv => h kv (List.mem_cons_of_mem p hkv))]

theorem Record.set_eq_map (u : Record) (k : String) (v : Value)
    (hnd : u.keys.Nodup) (hmem : k ∈ u.keys) :
    Record.set u k v = u.map (fun kv => if kv.1 = k then (k, v) else kv) := by
  induction u with
  | nil => simp [Record.keys_nil] at hmem
  | cons p rest ih =>
      rw [Record.keys_cons, List.nodup_cons] at hnd
      rw [Record.set_cons, List.map_cons]
      by_cases hp : p.1 = k
      · rw [if_pos hp, if_pos hp]
        have hrest : rest.map (fun kv => if kv.1 = k then (k, v) else kv) = rest := by
          apply map_eq_self_of
          intro kv hkv
          rw [if_neg]
          intro he
          apply hnd.1
          rw [hp, ← he]
          exact List.mem_map.mpr ⟨kv, hkv, rfl⟩
        rw [hrest]
      · rw [if_neg hp, if_neg hp]
        have hmem2 : k ∈ Record.keys rest := by
          rw [Record.keys_cons, List.mem_cons] at hmem
          rcases hmem with h1 | h1
          · exact absurd h1.symm hp
          · exact h1
        rw [ih hnd.2 hmem2]

theorem Record.mem_keys_of_get_some (u : Record) (k : String) (v : Value)
    (h : u.get k = some v) : k ∈ u.keys :=
  List.mem_map.mpr ⟨(k, v), Record.get_some_mem u k v h, rfl⟩

/-- Inversion of _get_model: a successful lookup names one of the four
tables with its schema. -/
theorem getModel_inv (table : String) (sch : TableSchema)
    (h : getModel table = .ok sch) :
    (table = "users" ∧ sch = usersSchema) ∨
    (table = "patients" ∧ sch = patientsSchema) ∨
    (table = "appointments" ∧ sch = appointmentsSchema) ∨
    (table = "billing" ∧ sch = billingSchema) := by
  by_cases h1 : table = "users"
  · subst h1
    have h2 : Except.ok usersSchema = Except.ok (ε := PyError) sch := h
    injection h2 with h3
    exact Or.inl ⟨rfl, h3.symm⟩
  by_cases h2 : table = "patients"
  · subst h2
    have h3 : Except.ok patientsSchema = Except.ok (ε := PyError) sch := h
    injection h3 with h4
    exact Or.inr (Or.inl ⟨rfl, h4.symm⟩)
  by_cases h3 : table = "appointments"
  · subst h3
    have h4 : Except.ok appointmentsSchema = Except.ok (ε := PyError) sch := h
    injection h4 with h5
    exact Or.inr (Or.inr (Or.inl ⟨rfl, h5.symm⟩))
  by_cases h4 : table = "billing"
  · subst h4
    have h5 : Except.ok billingSchema = Except.ok (ε := PyError) sch := h
    injection h5 with h6
    exact Or.inr (Or.inr (Or.inr ⟨rfl, h6.symm⟩))
  · exact absurd h (by simp [getModel, h1, h2, h3, h4])

theorem convertMap_eq_self (key : String) (u : Record) (hnd : u.keys.Nodup)
    (w : Value) (hu : u.get key = some w) (hw : strToEnum w = w) :
    u.map (fun kv => if kv.1 = key then (kv.1, strToEnum kv.2) else kv) = u := by
  apply map_eq_self_of
  intro kv hkv
  by_cases hk : kv.1 = key
  · rw [if_pos hk]
    have h3 : u.get key = some kv.2 := by
      rw [← hk]
      exact Record.get_of_mem_nodup u kv.1 kv.2 hnd hkv
    rw [hu] at h3
    injection h3 with h4
    obtain ⟨a, b⟩ := kv
    have h5 : w = b := h4
    show (a, strToEnum b) = (a, b)
    rw [← h5, hw]
  · rw [if_neg hk]

theorem convertMap_eq_self_of_absent (key : String) (u : Record)
    (hnd : u.keys.Nodup) (hu : u.get key = none) :
    u.map (fun kv => if kv.1 = key then (kv.1, strToEnum kv.2) else kv) = u := by
  apply map_eq_self_of
  intro kv hkv
  rw [if_neg]
  intro he
  have h2 : u.get key = some kv.2 := by
    rw [← he]
    exact Record.get_of_mem_nodup u kv.1 kv.2 hnd hkv
  rw [hu] at h2
  exact Option.noConfusion h2

theorem convertField_eq_map (allowed : List String) (key : String) (u : Record)
    (hnd : u.keys.Nodup)
    (hok : ∀ s, u.get key = some (.vstr s) → allowed.contains s = true) :
    convertField allowed key u =
      .ok (u.map (fun kv => if kv.1 = key then (kv.1, strToEnum kv.2) else kv)) := by
  cases hu : u.get key with
  | none =>
      rw [convertMap_eq_self_of_absent key u hnd hu]
      unfold convertField
      rw [hu]
  | some w =>
      cases w with
      | vstr s =>
          unfold convertField
          rw [hu]
          show (if allowed.contains s = true
            then Except.ok (Record.set u key (Value.venum s))
            else Except.error (PyError.valueError (s ++ " is not a valid enum member"))) = _
          rw [if_pos (hok s hu)]
          rw [Record.set_eq_map u key (.venum s) hnd
            (Record.mem_keys_of_get_some u key _ hu)]
          apply congrArg
          apply List.map_congr_left
          intro kv hkv
          by_cases hk : kv.1 = key
          · rw [if_pos hk, if_pos hk]
            have h3 : u.get key = some kv.2 := by
              rw [← hk]
              exact Record.get_of_mem_nodup u kv.1 kv.2 hnd hkv
            rw [hu] at h3
            injection h3 with h4
            rw [← h4, hk]
            rfl
          · rw [if_neg hk, if_neg hk]
      | vint n =>
          unfold convertField
          rw [hu]
          show Except.ok u = _
          rw [convertMap_eq_self key u hnd _ hu rfl]
      | vnum q =>
          unfold convertField
          rw [hu]
          show Except.ok u = _
          rw [convertMap_eq_self key u hnd _ hu rfl]
      | vbool b =>
          unfold convertField
          rw [hu]
          show Except.ok u = _
          rw [convertMap_eq_self key u hnd _ hu rfl]
      | vnull =>
          unfold convertField
          rw [hu]
          show Except.ok u = _
          rw [convertMap_eq_self key u hnd _ hu rfl]
      | vdtm s =>
          unfold convertField
          rw [hu]
          show Except.ok u = _
          rw [convertMap_eq_self key u hnd _ hu rfl]
      | venum s =>
          unfold convertField
          rw [hu]
          show Except.ok u = _
          rw [convertMap_eq_self key u hnd _ hu rfl]
      | vitems l =>
          unfold convertField
          rw [hu]
          show Except.ok u = _
          rw [convertMap_eq_self key u hnd _ hu rfl]

theorem convertEnums_eq_map (table : String) (sch : TableSchema)
    (hT : getModel table = .ok sch) (u : Record) (hnd : u.keys.Nodup)
    (hadm : ∀ kv ∈ u, kv.1 ∈ sch.columns → admissibleVal sch kv.1 kv.2 = true) :
    convertEnums table u = .ok (u.map (fun kv => (kv.1, inVal table kv.1 kv.2))) := by
  rcases getModel_inv table sch hT with ⟨ht, hs⟩ | ⟨ht, hs⟩ | ⟨ht, hs⟩ | ⟨ht, hs⟩
  · subst ht
    subst hs
    show convertField roleValues "role" u = _
    rw [convertField_eq_map roleValues "role" u hnd (fun s hs2 => by
      have hmem := Record.get_some_mem u "role" _ hs2
      exact hadm ("role", Value.vstr s) hmem (show "role" ∈ usersSchema.columns by decide))]
    apply congrArg
    apply List.map_congr_left
    intro kv hkv
    by_cases hk : kv.1 = "role"
    · simp [hk, inVal]
    · simp [hk, inVal]
  · subst ht
    subst hs
    show Except.ok u = _
    rw [map_eq_self_of u _ (fun kv hkv => by simp [inVal])]
  · subst ht
    subst hs
    show convertField statusValues "status" u = _
    rw [convertField_eq_map statusValues "status" u hnd (fun s hs2 => by
      have hmem := Record.get_some_mem u "status" _ hs2
      exact hadm ("status", Value.vstr s) hmem (show "status" ∈ appointmentsSchema.columns by decide))]
    apply congrArg
    apply List.map_congr_left
    intro kv hkv
    by_cases hk : kv.1 = "status"
    · simp [hk, inVal]
    · simp [hk, inVal]
  · subst ht
    subst hs
    show Except.ok u = _
    rw [map_eq_self_of u _ (fun kv hkv => by simp [inVal])]

/-!
Freshness of the autoincremented primary key.
-/

theorem maxPk_init_le (rows : List Record) (a : Int) :
    a ≤ rows.foldl (fun m r =>
      match (r.get "id").getD .vnull with
      | .vint n => max m n
      | _ => m) a := by
  induction rows generalizing a with
  | nil => exact le_refl a
  | cons r rest ih =>
      rw [List.foldl_cons]
      refine le_trans ?_ (ih _)
      cases (r.get "id").getD .vnull with
      | vint n => exact le_max_left a n
      | vstr s => exact le_refl a
      | vnum q => exact le_refl a
      | vbool b => exact le_refl a
      | vnull => exact le_refl a
      | vdtm s => exact le_refl a
      | venum s => exact le_refl a
      | vitems l => exact le_refl a

theorem mem_le_foldl_pk (rows : List Record) (rec : Record) (n : Int) (a : Int)
    (hmem : rec ∈ rows) (hid : (rec.get "id").getD .vnull = .vint n) :
    n ≤ rows.foldl (fun m r =>
      match (r.get "id").getD .vnull with
      | .vint k => max m k
      | _ => m) a := by
  induction rows generalizing a with
  | nil => simp at hmem
  | cons r rest ih =>
      rw [List.foldl_cons]
      rcases List.mem_cons.mp hmem with h1 | h1
      · subst h1
        refine le_trans ?_ (maxPk_init_le rest _)
        rw [hid]
        exact le_max_right a n
      · exact ih _ h1

theorem pkFresh (rows : List Record) (rec : Record) (hmem : rec ∈ rows) :
    (((rec.get "id").getD .vnull) == .vint (nextPk rows)) = false := by
  by_cases h : ((rec.get "id").getD .vnull) = .vint (nextPk rows)
  · exfalso
    have h1 : nextPk rows ≤ maxPk rows :=
      mem_le_foldl_pk rows rec (nextPk rows) 0 hmem h
    unfold nextPk at h1
    omega
  · simp [h]

/-!
Facts about the four concrete schemas used by the create and update
theorems; every field is decidable and checked by evaluation.
-/

theorem contains_iff (l : List String) (a : String) : l.contains a = true ↔ a ∈ l :=
  show l.elem a = true ↔ a ∈ l from List.elem_iff

/-- Shape facts shared by the four table schemas. -/
structure SchemaFacts (sch : TableSchema) : Prop where
  nodupCols : sch.columns.Nodup
  idMem : "id" ∈ sch.columns
  idFieldMem : sch.idField ∈ sch.columns
  idFieldNe : sch.idField ≠ "id"
  idFieldUnique : sch.idField ∈ sch.uniqueCols
  idFieldNotEnum : sch.enumAllowed sch.idField = none
  idNotEnum : sch.enumAllowed "id" = none
  notNullSub : sch.notNullCols.all (fun c => sch.columns.contains c) = true
  uniqueSub : sch.uniqueCols.all (fun c => sch.columns.contains c) = true
  defaultsTyped : sch.defaults.all (fun p => typeOKFor sch p.1 p.2) = true
  dtShape : sch.dtCols.all (fun c => (sch.enumAllowed c).isNone && !(c == "id")) = true
  uniqueBlank : sch.uniqueCols.all (fun c => (c == "id") ||
    ((sch.defaults.find? (fun p => p.1 == c)).isNone && !(sch.dtCols.contains c))) = true
  uniqueNotEnum : sch.uniqueCols.all (fun c => (sch.enumAllowed c).isNone) = true

theorem usersFacts : SchemaFacts usersSchema :=
  ⟨by decide, by decide, by decide, by decide, by decide, by decide, by decide,
   by decide, by decide, by decide, by decide, by decide, by decide⟩

theorem patientsFacts : SchemaFacts patientsSchema :=
  ⟨by decide, by decide, by decide, by decide, by decide, by decide, by decide,
   by decide, by decide, by decide, by decide, by decide, by decide⟩

theorem appointmentsFacts : SchemaFacts appointmentsSchema :=
  ⟨by decide, by decide, by decide, by decide, by decide, by decide, by decide,
   by decide, by decide, by decide, by decide, by decide, by decide⟩

theorem billingFacts : SchemaFacts billingSchema :=
  ⟨by decide, by decide, by decide, by decide, by decide, by decide, by decide,
   by decide, by decide, by decide, by decide, by decide, by decide⟩

/-!
Shape lemmas for typeOKFor and inVal.
-/

theorem typeOK_id (sch : TableSchema) (h : sch.enumAllowed "id" = none) (n : Int) :
    typeOKFor sch "id" (.vint n) = true := by
  unfold typeOKFor
  rw [h]
  rfl

theorem typeOK_vnull (sch : TableSchema) (c : String) (hc : (c == "id") = false) :
    typeOKFor sch c .vnull = true := by
  unfold typeOKFor
  cases he : sch.enumAllowed c with
  | some allowed => rfl
  | none =>
      rw [hc]
      show (if (false = true) then _ else _) = true
      rw [if_neg (by simp)]
      by_cases hdt : sch.dtCols.contains c = true
      · rw [if_pos hdt]
      · rw [if_neg hdt]
        by_cases hb : sch.boolCols.contains c = true
        · rw [if_pos hb]
        · rw [if_neg hb]

theorem typeOK_dt (sch : TableSchema) (c : String) (now : String)
    (he : sch.enumAllowed c = none) (hc : (c == "id") = false)
    (hdt : sch.dtCols.contains c = true) :
    typeOKFor sch c (.vdtm now) = true := by
  unfold typeOKFor
  rw [he, hc]
  show (if (false = true) then _ else _) = true
  rw [if_neg (by simp), if_pos hdt]

theorem typeOK_of_admissible_nonenum (sch : TableSchema) (c : String) (w : Value)
    (hc : (c == "id") = false) (he : sch.enumAllowed c = none)
    (h : admissibleVal sch c w = true) : typeOKFor sch c w = true := by
  unfold admissibleVal at h
  unfold typeOKFor
  rw [he] at h ⊢
  rw [hc]
  show (if (false = true) then _ else _) = true
  rw [if_neg (by simp)]
  by_cases hdt : sch.dtCols.contains c = true
  · rw [if_pos hdt]
    rw [if_pos hdt] at h
    have hw : w = .vnull := by simpa using h
    rw [hw]
  · rw [if_neg hdt]
    rw [if_neg hdt] at h
    by_cases hb : sch.boolCols.contains c = true
    · rw [if_pos hb]
      rw [if_pos hb] at h
      cases w <;> first | rfl | exact h
    · rw [if_neg hb]
      rw [if_neg hb] at h
      cases w <;> first | rfl | exact h

theorem inVal_vnull_inv (table c : String) (w : Value)
    (h : inVal table c w = .vnull) : w = .vnull := by
  by_cases hcond : ((table == "users" && c == "role") ||
      (table == "appointments" && c == "status")) = true
  · unfold inVal at h
    rw [if_pos hcond] at h
    cases w <;> first | exact h | exact Value.noConfusion h
  · unfold inVal at h
    rw [if_neg hcond] at h
    exact h

theorem inVal_id_of_cond_false (table c : String)
    (hcond : ((table == "users" && c == "role") ||
      (table == "appointments" && c == "status")) = false) (w : Value) :
    inVal table c w = w := by
  unfold inVal
  rw [hcond]
  show (if (false = true) then _ else _) = w
  rw [if_neg (by simp)]

theorem inVal_id_of_not_enum (table : String) (sch : TableSchema) (c : String)
    (hT : getModel table = .ok sch) (he : sch.enumAllowed c = none) (w : Value) :
    inVal table c w = w := by
  rcases getModel_inv table sch hT with ⟨ht, hs⟩ | ⟨ht, hs⟩ | ⟨ht, hs⟩ | ⟨ht, hs⟩ <;>
    subst ht <;> subst hs
  · apply inVal_id_of_cond_false
    have hc : (c == "role") = false := by
      by_cases h2 : c = "role"
      · subst h2
        exact absurd he (by decide)
      · simp [h2]
    simp [hc]
  · apply inVal_id_of_cond_false
    simp
  · apply inVal_id_of_cond_false
    have hc : (c == "status") = false := by
      by_cases h2 : c = "status"
      · subst h2
        exact absurd he (by decide)
      · simp [h2]
    simp [hc]
  · apply inVal_id_of_cond_false
    simp

theorem enumAllowed_users_inv (c : String) (allowed : List String)
    (he : usersSchema.enumAllowed c = some allowed) :
    c = "role" ∧ allowed = roleValues := by
  by_cases hc : c = "role"
  · subst hc
    have he2 : some roleValues = some allowed := he
    injection he2 with h3
    exact ⟨rfl, h3.symm⟩
  · exfalso
    have hcf : ("role" == c) = false := by
      rw [beq_eq_false_iff_ne]
      exact fun h3 => hc h3.symm
    have he2 : usersSchema.enumAllowed c = none := by
      unfold TableSchema.enumAllowed
      show Option.map Prod.snd (List.find? (fun p => p.1 == c) [("role", roleValues)]) = none
      rw [show List.find? (fun p => p.1 == c) [("role", roleValues)] = none from by
        rw [List.find?_eq_none]
        intro x hx
        rw [List.mem_singleton] at hx
        subst hx
        simp [hcf]]
      rfl
    rw [he2] at he
    exact Option.noConfusion he

theorem enumAllowed_appointments_inv (c : String) (allowed : List String)
    (he : appointmentsSchema.enumAllowed c = some allowed) :
    c = "status" ∧ allowed = statusValues := by
  by_cases hc : c = "status"
  · subst hc
    have he2 : some statusValues = some allowed := he
    injection he2 with h3
    exact ⟨rfl, h3.symm⟩
  · exfalso
    have hcf : ("status" == c) = false := by
      rw [beq_eq_false_iff_ne]
      exact fun h3 => hc h3.symm
    have he2 : appointmentsSchema.enumAllowed c = none := by
      unfold TableSchema.enumAllowed
      show Option.map Prod.snd (List.find? (fun p => p.1 == c) [("status", statusValues)]) = none
      rw [show List.find? (fun p => p.1 == c) [("status", statusValues)] = none from by
        rw [List.find?_eq_none]
        intro x hx
        rw [List.mem_singleton] at hx
        subst hx
        simp [hcf]]
      rfl
    rw [he2] at he
    exact Option.noConfusion he

theorem typeOK_inVal (table : String) (sch : TableSchema) (c : String) (w : Value)
    (hT : getModel table = .ok sch) (hc : (c == "id") = false)
    (h : admissibleVal sch c w = true) :
    typeOKFor sch c (inVal table c w) = true := by
  cases he : sch.enumAllowed c with
  | none =>
      rw [inVal_id_of_not_enum table sch c hT he w]
      exact typeOK_of_admissible_nonenum sch c w hc he h
  | some allowed =>
      rcases getModel_inv table sch hT with ⟨ht, hs⟩ | ⟨ht, hs⟩ | ⟨ht, hs⟩ | ⟨ht, hs⟩ <;>
        subst ht <;> subst hs
      · have hcr : c = "role" := (enumAllowed_users_inv c allowed he).1
        subst hcr
        cases w with
        | vstr s => exact h
        | vnull => rfl
        | vint n => exact Bool.noConfusion (show false = true from h)
        | vnum q => exact Bool.noConfusion (show false = true from h)
        | vbool b => exact Bool.noConfusion (show false = true from h)
        | vdtm s => exact Bool.noConfusion (show false = true from h)
        | venum s => exact Bool.noConfusion (show false = true from h)
        | vitems l => exact Bool.noConfusion (show false = true from h)
      · exact Option.noConfusion
          (show (none : Option (List String)) = some allowed from he)
      · have hcr : c = "status" := (enumAllowed_appointments_inv c allowed he).1
        subst hcr
        cases w with
        | vstr s => exact h
        | vnull => rfl
        | vint n => exact Bool.noConfusion (show false = true from h)
        | vnum q => exact Bool.noConfusion (show false = true from h)
        | vbool b => exact Bool.noConfusion (show false = true from h)
        | vdtm s => exact Bool.noConfusion (show false = true from h)
        | venum s => exact Bool.noConfusion (show false = true from h)
        | vitems l => exact Bool.noConfusion (show false = true from h)
      · exact Option.noConfusion
          (show (none : Option (List String)) = some allowed from he)

theorem outView_inVal (table : String) (sch : TableSchema) (c : String) (w : Value)
    (hT : getModel table = .ok sch) (h : admissibleVal sch c w = true) :
    outView (inVal table c w) = w := by
  cases he : sch.enumAllowed c with
  | none =>
      rw [inVal_id_of_not_enum table sch c hT he w]
      unfold admissibleVal at h
      rw [he] at h
      by_cases hdt : sch.dtCols.contains c = true
      · rw [if_pos hdt] at h
        have hw : w = .vnull := by simpa using h
        rw [hw]
        rfl
      · rw [if_neg hdt] at h
        by_cases hb : sch.boolCols.contains c = true
        · rw [if_pos hb] at h
          cases w <;> first | rfl | exact absurd h (by simp)
        · rw [if_neg hb] at h
          cases w <;> first | rfl | exact absurd h (by simp)
  | some allowed =>
      unfold admissibleVal at h
      rw [he] at h
      have hcond : inVal table c w = strToEnum w ∨ inVal table c w = w := by
        unfold inVal
        by_cases hcond2 : ((table == "users" && c == "role") ||
            (table == "appointments" && c == "status")) = true
        · rw [if_pos hcond2]
          exact Or.inl rfl
        · rw [if_neg hcond2]
          exact Or.inr rfl
      rcases hcond with h2 | h2 <;> rw [h2] <;> cases w <;>
        first | rfl | exact Bool.noConfusion (show false = true from h)

/-!
Characterization of the inserted row.
-/

theorem materialize_get (sch : TableSchema) (now : String) (pk : Int)
    (rc : Record) (c : String) :
    Record.get (materialize sch now pk rc) c =
      if c ∈ sch.columns then some (matVal sch now pk rc c) else none :=
  Record.get_map_keys sch.columns (matVal sch now pk rc) c

theorem matVal_id (sch : TableSchema) (now : String) (pk : Int) (rc : Record)
    (h : rc.get "id" = none) : matVal sch now pk rc "id" = .vint pk := by
  unfold matVal
  rw [h]
  rfl

theorem matVal_supplied (sch : TableSchema) (now : String) (pk : Int) (rc : Record)
    (c : String) (w : Value) (hc : (c == "id") = false) (h : rc.get c = some w) :
    matVal sch now pk rc c = w := by
  unfold matVal
  rw [hc, h]
  rfl

theorem matVal_default (sch : TableSchema) (now : String) (pk : Int) (rc : Record)
    (c : String) (q : String × Value) (hc : (c == "id") = false) (h : rc.get c = none)
    (hd : sch.defaults.find? (fun p => p.1 == c) = some q) :
    matVal sch now pk rc c = q.2 := by
  unfold matVal
  rw [hc, h, hd]
  rfl

theorem matVal_dt (sch : TableSchema) (now : String) (pk : Int) (rc : Record)
    (c : String) (hc : (c == "id") = false) (h : rc.get c = none)
    (hd : sch.defaults.find? (fun p => p.1 == c) = none)
    (hdt : sch.dtCols.contains c = true) :
    matVal sch now pk rc c = .vdtm now := by
  unfold matVal
  rw [hc, h, hd]
  show (if sch.dtCols.contains c = true then Value.vdtm now else Value.vnull) = _
  rw [if_pos hdt]

theorem matVal_blank (sch : TableSchema) (now : String) (pk : Int) (rc : Record)
    (c : String) (hc : (c == "id") = false) (h : rc.get c = none)
    (hd : sch.defaults.find? (fun p => p.1 == c) = none)
    (hdt : sch.dtCols.contains c = false) :
    matVal sch now pk rc c = .vnull := by
  unfold matVal
  rw [hc, h, hd]
  show (if sch.dtCols.contains c = true then Value.vdtm now else Value.vnull) = _
  rw [hdt]
  rfl

theorem rowTypesOK_materialize (sch : TableSchema) (now : String) (pk : Int)
    (rc : Record)
    (hidnone : rc.get "id" = none)
    (hEnumId : sch.enumAllowed "id" = none)
    (hsup : ∀ c w, (c == "id") = false → rc.get c = some w → typeOKFor sch c w = true)
    (hdef : sch.defaults.all (fun p => typeOKFor sch p.1 p.2) = true)
    (hdt : sch.dtCols.all (fun c => (sch.enumAllowed c).isNone && !(c == "id")) = true) :
    rowTypesOK sch (materialize sch now pk rc) = true := by
  unfold rowTypesOK materialize
  rw [List.all_eq_true]
  intro x hx
  obtain ⟨c, hc, rfl⟩ := List.mem_map.mp hx
  show typeOKFor sch c (matVal sch now pk rc c) = true
  by_cases hcid : c = "id"
  · subst hcid
    rw [matVal_id sch now pk rc hidnone]
    exact typeOK_id sch hEnumId pk
  · have hcidf : (c == "id") = false := beq_eq_false_iff_ne.mpr hcid
    cases hg : rc.get c with
    | some w =>
        rw [matVal_supplied sch now pk rc c w hcidf hg]
        exact hsup c w hcidf hg
    | none =>
        cases hfind : sch.defaults.find? (fun p => p.1 == c) with
        | some q =>
            rw [matVal_default sch now pk rc c q hcidf hg hfind]
            have hqmem := List.mem_of_find?_eq_some hfind
            have hqpred := List.find?_some hfind
            have hq1 : q.1 = c := by simpa using hqpred
            have := (List.all_eq_true.mp hdef) q hqmem
            rw [hq1] at this
            exact this
        | none =>
            by_cases hdtc : sch.dtCols.contains c = true
            · rw [matVal_dt sch now pk rc c hcidf hg hfind hdtc]
              have hmem : c ∈ sch.dtCols := (contains_iff _ _).mp hdtc
              have h2 := (List.all_eq_true.mp hdt) c hmem
              rw [Bool.and_eq_true] at h2
              exact typeOK_dt sch c now (Option.isNone_iff_eq_none.mp h2.1) hcidf hdtc
            · rw [matVal_blank sch now pk rc c hcidf hg hfind
                (by simpa using hdtc)]
              exact typeOK_vnull sch c hcidf

theorem rowNotNullOK_materialize (sch : TableSchema) (now : String) (pk : Int)
    (rc : Record)
    (hsub : sch.notNullCols.all (fun c => sch.columns.contains c) = true)
    (hidnone : rc.get "id" = none)
    (hsup : ∀ c, c ∈ sch.notNullCols → (c == "id") = false →
      ∃ w, rc.get c = some w ∧ w ≠ .vnull) :
    rowNotNullOK sch (materialize sch now pk rc) = true := by
  unfold rowNotNullOK
  rw [List.all_eq_true]
  intro c hc
  have hcol : c ∈ sch.columns :=
    (contains_iff _ _).mp ((List.all_eq_true.mp hsub) c hc)
  rw [materialize_get, if_pos hcol]
  simp only [Option.getD_some]
  by_cases hcid : c = "id"
  · subst hcid
    rw [matVal_id sch now pk rc hidnone]
    rfl
  · have hcidf : (c == "id") = false := beq_eq_false_iff_ne.mpr hcid
    obtain ⟨w, hw, hwn⟩ := hsup c hc hcidf
    rw [matVal_supplied sch now pk rc c w hcidf hw]
    rw [beq_eq_false_iff_ne.mpr hwn]
    rfl

theorem rowUniqueOK_materialize (sch : TableSchema) (now : String)
    (rc : Record) (old : List Record)
    (hsub : sch.uniqueCols.all (fun c => sch.columns.contains c) = true)
    (hidnone : rc.get "id" = none)
    (hblank : sch.uniqueCols.all (fun c => (c == "id") ||
      ((sch.defaults.find? (fun p => p.1 == c)).isNone &&
        !(sch.dtCols.contains c))) = true)
    (hsup : ∀ c w, c ∈ sch.uniqueCols → (c == "id") = false → rc.get c = some w →
      w ≠ .vnull → ∀ old_r ∈ old, ((old_r.get c).getD .vnull) ≠ w) :
    rowUniqueOK sch old (materialize sch now (nextPk old) rc) = true := by
  unfold rowUniqueOK
  rw [List.all_eq_true]
  intro c hc
  have hcol : c ∈ sch.columns :=
    (contains_iff _ _).mp ((List.all_eq_true.mp hsub) c hc)
  rw [materialize_get, if_pos hcol]
  simp only [Option.getD_some]
  by_cases hcid : c = "id"
  · subst hcid
    rw [matVal_id sch now (nextPk old) rc hidnone]
    rw [Bool.or_eq_true]
    right
    rw [List.all_eq_true]
    intro old_r hor
    rw [pkFresh old old_r hor]
    rfl
  · have hcidf : (c == "id") = false := beq_eq_false_iff_ne.mpr hcid
    cases hg : rc.get c with
    | some w =>
        rw [matVal_supplied sch now (nextPk old) rc c w hcidf hg]
        by_cases hwn : w = .vnull
        · rw [Bool.or_eq_true]
          left
          rw [hwn]
          rfl
        · rw [Bool.or_eq_true]
          right
          rw [List.all_eq_true]
          intro old_r hor
          rw [beq_eq_false_iff_ne.mpr (hsup c w hc hcidf hg hwn old_r hor)]
          rfl
    | none =>
        have h2 := (List.all_eq_true.mp hblank) c hc
        rw [hcidf] at h2
        have h3 : ((sch.defaults.find? (fun p => p.1 == c)).isNone &&
            !(sch.dtCols.contains c)) = true := by simpa using h2
        rw [Bool.and_eq_true] at h3
        rw [matVal_blank sch now (nextPk old) rc c hcidf hg
          (Option.isNone_iff_eq_none.mp h3.1) (by simpa using h3.2)]
        rw [Bool.or_eq_true]
        left
        rfl

theorem checkRow_ok (sch : TableSchema) (old : List Record) (nr : Record)
    (h1 : rowTypesOK sch nr = true) (h2 : rowNotNullOK sch nr = true)
    (h3 : rowUniqueOK sch old nr = true) : checkRow sch old nr = .ok () := by
  unfold checkRow
  rw [h1, h2, h3]
  rfl

theorem checkRow_dup (sch : TableSchema) (old : List Record) (nr : Record)
    (h1 : rowTypesOK sch nr = true) (h2 : rowNotNullOK sch nr = true)
    (h3 : rowUniqueOK sch old nr = false) :
    checkRow sch old nr = .error (.databaseException "UNIQUE constraint failed") := by
  unfold checkRow
  rw [h1, h2, h3]
  rfl

theorem DBState.get_setTable_ne (st : DBState) (t t2 : String) (rs : List Record)
    (h : t2 ≠ t) : (st.set t rs).get t2 = st.get t2 := by
  unfold DBState.set DBState.get
  by_cases h1 : t = "users"
  · subst h1
    have hb : (t2 == "users") = false := by simp [h]
    simp [hb]
  by_cases h2 : t = "patients"
  · subst h2
    have hb : (t2 == "patients") = false := by simp [h]
    simp [hb]
  by_cases h3 : t = "appointments"
  · subst h3
    have hb : (t2 == "appointments") = false := by simp [h]
    simp [hb]
  by_cases h4 : t = "billing"
  · subst h4
    have hb : (t2 == "billing") = false := by simp [h]
    simp [hb]
  · simp [h1, h2, h3, h4]

theorem DBState.get_set_self_known (st : DBState) (t : String) (sch : TableSchema)
    (hT : getModel t = .ok sch) (rs : List Record) : (st.set t rs).get t = rs := by
  rcases getModel_inv t sch hT with ⟨ht, _⟩ | ⟨ht, _⟩ | ⟨ht, _⟩ | ⟨ht, _⟩ <;>
    (subst ht; rfl)

/-!
Core lemma: a well-formed insert with fresh unique values succeeds,
appends exactly one fully materialized row, and a point read on the
business identifier afterwards returns exactly that row, agreeing with
the supplied record on every supplied field.
-/

theorem create_ok_core (table : String) (sch : TableSchema) (now v : String)
    (r : Record) (st : DBState)
    (hT : getModel table = .ok sch) (F : SchemaFacts sch)
    (hnd : r.keys.Nodup)
    (hcols : ∀ kv ∈ r, kv.1 ∈ sch.columns ∧ kv.1 ≠ "id")
    (hadm : ∀ kv ∈ r, admissibleVal sch kv.1 kv.2 = true)
    (hnn0 : ∀ c ∈ sch.notNullCols, (r.get c).getD .vnull ≠ .vnull)
    (hid : r.get sch.idField = some (.vstr v))
    (huniq0 : ∀ c ∈ sch.uniqueCols, (r.get c).getD .vnull ≠ .vnull →
      ∀ old_r ∈ st.get table, ((old_r.get c).getD .vnull) ≠ (r.get c).getD .vnull)
    (hfiltConv : convertFilterVal table sch.idField (.vstr v) = .ok (.vstr v)) :
    create now table r st = .ok (true, st.set table (st.get table ++
      [materialize sch now (nextPk (st.get table))
        (r.map (fun kv => (kv.1, inVal table kv.1 kv.2)))])) ∧
    ∃ out, read table [(sch.idField, .vstr v)]
        (st.set table (st.get table ++
          [materialize sch now (nextPk (st.get table))
            (r.map (fun kv => (kv.1, inVal table kv.1 kv.2)))])) = .ok [out] ∧
      out.get sch.idField = some (.vstr v) ∧
      ∀ kv ∈ r, out.get kv.1 = some kv.2 := by
  have hnn : ∀ c ∈ sch.notNullCols, ∃ w, r.get c = some w ∧ w ≠ .vnull := by
    intro c hc
    have h0 := hnn0 c hc
    cases hg : r.get c with
    | none => rw [hg] at h0; exact absurd rfl h0
    | some w =>
        rw [hg] at h0
        exact ⟨w, rfl, h0⟩
  have huniq : ∀ c ∈ sch.uniqueCols, ∀ w, r.get c = some w → w ≠ .vnull →
      ∀ old_r ∈ st.get table, ((old_r.get c).getD .vnull) ≠ w := by
    intro c hc w hg hwn old_r hor
    have h0 := huniq0 c hc (by rw [hg]; exact hwn) old_r hor
    rw [hg] at h0
    exact h0
  have hrcGet : ∀ k, Record.get (r.map (fun kv => (kv.1, inVal table kv.1 kv.2))) k
      = (r.get k).map (inVal table k) := fun k => Record.get_map_entry r (inVal table) k
  have hidnk : "id" ∉ r.keys := by
    intro hmem
    obtain ⟨kv, hkv, hkv1⟩ := List.mem_map.mp hmem
    exact (hcols kv hkv).2 hkv1
  have hidnone : Record.get (r.map (fun kv => (kv.1, inVal table kv.1 kv.2))) "id" = none := by
    rw [hrcGet, Record.get_eq_none_of_not_mem r "id" hidnk]
    rfl
  have hsupTyped : ∀ c w, (c == "id") = false →
      Record.get (r.map (fun kv => (kv.1, inVal table kv.1 kv.2))) c = some w →
      typeOKFor sch c w = true := by
    intro c w hcid hg
    rw [hrcGet c] at hg
    cases hr : r.get c with
    | none => rw [hr] at hg; exact Option.noConfusion hg
    | some w0 =>
        rw [hr] at hg
        injection hg with hg2
        rw [← hg2]
        exact typeOK_inVal table sch c w0 hT hcid (hadm _ (Record.get_some_mem r c w0 hr))
  have hsupNN : ∀ c, c ∈ sch.notNullCols → (c == "id") = false →
      ∃ w, Record.get (r.map (fun kv => (kv.1, inVal table kv.1 kv.2))) c = some w ∧
        w ≠ .vnull := by
    intro c hc hcid
    obtain ⟨w0, hw0, hw0n⟩ := hnn c hc
    refine ⟨inVal table c w0, ?_, ?_⟩
    · rw [hrcGet c, hw0]
      rfl
    · intro hnl
      exact hw0n (inVal_vnull_inv table c w0 hnl)
  have hsupUq : ∀ c w, c ∈ sch.uniqueCols → (c == "id") = false →
      Record.get (r.map (fun kv => (kv.1, inVal table kv.1 kv.2))) c = some w →
      w ≠ .vnull → ∀ old_r ∈ st.get table, ((old_r.get c).getD .vnull) ≠ w := by
    intro c w hc hcid hg hwn old_r hor
    rw [hrcGet c] at hg
    cases hr : r.get c with
    | none => rw [hr] at hg; exact Option.noConfusion hg
    | some w0 =>
        rw [hr] at hg
        injection hg with hg2
        have henum : sch.enumAllowed c = none :=
          Option.isNone_iff_eq_none.mp ((List.all_eq_true.mp F.uniqueNotEnum) c hc)
        have hww : w0 = w := by
          rw [← hg2, inVal_id_of_not_enum table sch c hT henum w0]
        subst hww
        exact huniq c hc w0 hr hwn old_r hor
  have htypes := rowTypesOK_materialize sch now (nextPk (st.get table)) _
    hidnone F.idNotEnum hsupTyped F.defaultsTyped F.dtShape
  have hnotnull := rowNotNullOK_materialize sch now (nextPk (st.get table)) _
    F.notNullSub hidnone hsupNN
  have hunique := rowUniqueOK_materialize sch now _ (st.get table)
    F.uniqueSub hidnone F.uniqueBlank hsupUq
  have hcheck := checkRow_ok sch (st.get table) _ htypes hnotnull hunique
  have hconv := convertEnums_eq_map table sch hT r hnd (fun kv hm _ => hadm kv hm)
  have hfind : (r.map (fun kv => (kv.1, inVal table kv.1 kv.2))).find?
      (fun p => !(sch.columns.contains p.1)) = none := by
    rw [List.find?_eq_none]
    intro x hx
    obtain ⟨kv, hkv, rfl⟩ := List.mem_map.mp hx
    show ¬(!(sch.columns.contains kv.1)) = true
    rw [(contains_iff _ _).mpr (hcols kv hkv).1]
    simp
  have hrcId : Record.get (r.map (fun kv => (kv.1, inVal table kv.1 kv.2)))
      sch.idField = some (.vstr v) := by
    rw [hrcGet, hid]
    show some (inVal table sch.idField (.vstr v)) = some (.vstr v)
    rw [inVal_id_of_not_enum table sch sch.idField hT F.idFieldNotEnum]
  have hnrId : Record.get (materialize sch now (nextPk (st.get table))
      (r.map (fun kv => (kv.1, inVal table kv.1 kv.2)))) sch.idField = some (.vstr v) := by
    rw [materialize_get, if_pos F.idFieldMem,
      matVal_supplied sch now _ _ sch.idField (.vstr v)
        (beq_eq_false_iff_ne.mpr F.idFieldNe) hrcId]
  have hbf : buildFilters table sch.columns [(sch.idField, .vstr v)] =
      .ok [(sch.idField, .vstr v)] := by
    unfold buildFilters
    show (if sch.columns.contains sch.idField = true then _ else _) = _
    rw [if_pos ((contains_iff _ _).mpr F.idFieldMem)]
    show Except.bind (convertFilterVal table sch.idField (.vstr v)) _ = _
    rw [hfiltConv]
    rfl
  have hfilter : ((st.get table) ++ [materialize sch now (nextPk (st.get table))
      (r.map (fun kv => (kv.1, inVal table kv.1 kv.2)))]).filter
        (matchesFilters [(sch.idField, .vstr v)]) =
      [materialize sch now (nextPk (st.get table))
        (r.map (fun kv => (kv.1, inVal table kv.1 kv.2)))] := by
    rw [List.filter_append]
    have h1 : (st.get table).filter (matchesFilters [(sch.idField, .vstr v)]) = [] := by
      rw [List.filter_eq_nil_iff]
      intro old_r hor
      unfold matchesFilters
      simp only [List.all_cons, List.all_nil, Bool.and_true]
      rw [beq_eq_false_iff_ne.mpr
        (huniq sch.idField F.idFieldUnique (.vstr v) hid
          (fun hcw => Value.noConfusion hcw) old_r hor)]
      simp
    have h2 : [materialize sch now (nextPk (st.get table))
        (r.map (fun kv => (kv.1, inVal table kv.1 kv.2)))].filter
          (matchesFilters [(sch.idField, .vstr v)]) =
        [materialize sch now (nextPk (st.get table))
          (r.map (fun kv => (kv.1, inVal table kv.1 kv.2)))] := by
      have hm : matchesFilters [(sch.idField, .vstr v)]
          (materialize sch now (nextPk (st.get table))
            (r.map (fun kv => (kv.1, inVal table kv.1 kv.2)))) = true := by
        unfold matchesFilters
        simp only [List.all_cons, List.all_nil, Bool.and_true]
        rw [hnrId]
        simp only [Option.getD_some]
        exact beq_self_eq_true _
      rw [List.filter_cons, hm]
      rfl
    rw [h1, h2]
    rfl
  have hmtd : ∀ c, c ∈ sch.columns → c ≠ "id" →
      Record.get (model_to_dict sch (materialize sch now (nextPk (st.get table))
        (r.map (fun kv => (kv.1, inVal table kv.1 kv.2))))) c =
      some (outView ((Record.get (materialize sch now (nextPk (st.get table))
        (r.map (fun kv => (kv.1, inVal table kv.1 kv.2)))) c).getD .vnull)) := by
    intro c hcmem hcne
    unfold model_to_dict
    rw [Record.get_map_keys]
    rw [if_pos (List.mem_filter.mpr ⟨hcmem, by
      rw [beq_eq_false_iff_ne.mpr hcne]
      rfl⟩)]
  constructor
  · unfold create
    rw [hT]
    show Except.bind (convertEnums table r) _ = _
    rw [hconv]
    show (match (r.map (fun kv => (kv.1, inVal table kv.1 kv.2))).find?
        (fun p => !(sch.columns.contains p.1)) with
      | some p => Except.error (PyError.typeError (p.1 ++ " is an invalid keyword argument"))
      | none =>
        match checkRow sch (st.get table) (materialize sch now (nextPk (st.get table))
            (r.map (fun kv : String × Value => (kv.1, inVal table kv.1 kv.2)))) with
        | Except.error e =>
            Except.error (PyError.databaseException ("Failed to create record: " ++ e.msg))
        | Except.ok _ => Except.ok (true, st.set table ((st.get table) ++
            [materialize sch now (nextPk (st.get table))
              (r.map (fun kv : String × Value => (kv.1, inVal table kv.1 kv.2)))]))) = _
    rw [hfind, hcheck]
  · refine ⟨model_to_dict sch (materialize sch now (nextPk (st.get table))
      (r.map (fun kv => (kv.1, inVal table kv.1 kv.2)))), ?_, ?_, ?_⟩
    · unfold read
      rw [hT]
      show Except.bind (buildFilters table sch.columns [(sch.idField, .vstr v)]) _ = _
      rw [hbf]
      show Except.ok ((((st.set table ((st.get table) ++
          [materialize sch now (nextPk (st.get table))
            (r.map (fun kv => (kv.1, inVal table kv.1 kv.2)))])).get table).filter
        (matchesFilters [(sch.idField, .vstr v)])).map (model_to_dict sch)) = _
      rw [DBState.get_set_self_known st table sch hT, hfilter]
      rfl
    · rw [hmtd sch.idField F.idFieldMem F.idFieldNe, hnrId]
      rfl
    · intro kv hkv
      have h1 := (hcols kv hkv).1
      have h2 := (hcols kv hkv).2
      rw [hmtd kv.1 h1 h2]
      have hr0 : r.get kv.1 = some kv.2 := Record.get_of_mem_nodup r kv.1 kv.2 hnd hkv
      have hrck : Record.get (r.map (fun q => (q.1, inVal table q.1 q.2))) kv.1 =
          some (inVal table kv.1 kv.2) := by
        rw [hrcGet, hr0]
        rfl
      have hnrk : Record.get (materialize sch now (nextPk (st.get table))
          (r.map (fun q => (q.1, inVal table q.1 q.2)))) kv.1 =
          some (inVal table kv.1 kv.2) := by
        rw [materialize_get, if_pos h1,
          matVal_supplied sch now _ _ kv.1 _ (beq_eq_false_iff_ne.mpr h2) hrck]
      rw [hnrk]
      simp only [Option.getD_some]
      rw [outView_inVal table sch kv.1 kv.2 hT (hadm kv hkv)]

/-!
Core lemma: an otherwise well-formed insert whose business identifier
already exists in the table fails with the DatabaseException wrapping
the unique-constraint violation.
-/

theorem create_dup_core (table : String) (sch : TableSchema) (now v : String)
    (r : Record) (st : DBState)
    (hT : getModel table = .ok sch) (F : SchemaFacts sch)
    (hnd : r.keys.Nodup)
    (hcols : ∀ kv ∈ r, kv.1 ∈ sch.columns ∧ kv.1 ≠ "id")
    (hadm : ∀ kv ∈ r, admissibleVal sch kv.1 kv.2 = true)
    (hnn0 : ∀ c ∈ sch.notNullCols, (r.get c).getD .vnull ≠ .vnull)
    (hid : r.get sch.idField = some (.vstr v))
    (hdup : ∃ old_r ∈ st.get table, ((old_r.get sch.idField).getD .vnull) = .vstr v) :
    create now table r st =
      .error (.databaseException "Failed to create record: UNIQUE constraint failed") := by
  have hnn : ∀ c ∈ sch.notNullCols, ∃ w, r.get c = some w ∧ w ≠ .vnull := by
    intro c hc
    have h0 := hnn0 c hc
    cases hg : r.get c with
    | none => rw [hg] at h0; exact absurd rfl h0
    | some w =>
        rw [hg] at h0
        exact ⟨w, rfl, h0⟩
  have hrcGet : ∀ k, Record.get (r.map (fun kv => (kv.1, inVal table kv.1 kv.2))) k
      = (r.get k).map (inVal table k) := fun k => Record.get_map_entry r (inVal table) k
  have hidnk : "id" ∉ r.keys := by
    intro hmem
    obtain ⟨kv, hkv, hkv1⟩ := List.mem_map.mp hmem
    exact (hcols kv hkv).2 hkv1
  have hidnone : Record.get (r.map (fun kv => (kv.1, inVal table kv.1 kv.2))) "id" = none := by
    rw [hrcGet, Record.get_eq_none_of_not_mem r "id" hidnk]
    rfl
  have hsupTyped : ∀ c w, (c == "id") = false →
      Record.get (r.map (fun kv => (kv.1, inVal table kv.1 kv.2))) c = some w →
      typeOKFor sch c w = true := by
    intro c w hcid hg
    rw [hrcGet c] at hg
    cases hr : r.get c with
    | none => rw [hr] at hg; exact Option.noConfusion hg
    | some w0 =>
        rw [hr] at hg
        injection hg with hg2
        rw [← hg2]
        exact typeOK_inVal table sch c w0 hT hcid (hadm _ (Record.get_some_mem r c w0 hr))
  have hsupNN : ∀ c, c ∈ sch.notNullCols → (c == "id") = false →
      ∃ w, Record.get (r.map (fun kv => (kv.1, inVal table kv.1 kv.2))) c = some w ∧
        w ≠ .vnull := by
    intro c hc hcid
    obtain ⟨w0, hw0, hw0n⟩ := hnn c hc
    refine ⟨inVal table c w0, ?_, ?_⟩
    · rw [hrcGet c, hw0]
      rfl
    · intro hnl
      exact hw0n (inVal_vnull_inv table c w0 hnl)
  have htypes := rowTypesOK_materialize sch now (nextPk (st.get table)) _
    hidnone F.idNotEnum hsupTyped F.defaultsTyped F.dtShape
  have hnotnull := rowNotNullOK_materialize sch now (nextPk (st.get table)) _
    F.notNullSub hidnone hsupNN
  have hconv := convertEnums_eq_map table sch hT r hnd (fun kv hm _ => hadm kv hm)
  have hfind : (r.map (fun kv => (kv.1, inVal table kv.1 kv.2))).find?
      (fun p => !(sch.columns.contains p.1)) = none := by
    rw [List.find?_eq_none]
    intro x hx
    obtain ⟨kv, hkv, rfl⟩ := List.mem_map.mp hx
    show ¬(!(sch.columns.contains kv.1)) = true
    rw [(contains_iff _ _).mpr (hcols kv hkv).1]
    simp
  have hrcId : Record.get (r.map (fun kv => (kv.1, inVal table kv.1 kv.2)))
      sch.idField = some (.vstr v) := by
    rw [hrcGet, hid]
    show some (inVal table sch.idField (.vstr v)) = some (.vstr v)
    rw [inVal_id_of_not_enum table sch sch.idField hT F.idFieldNotEnum]
  have hnrId : Record.get (materialize sch now (nextPk (st.get table))
      (r.map (fun kv => (kv.1, inVal table kv.1 kv.2)))) sch.idField = some (.vstr v) := by
    rw [materialize_get, if_pos F.idFieldMem,
      matVal_supplied sch now _ _ sch.idField (.vstr v)
        (beq_eq_false_iff_ne.mpr F.idFieldNe) hrcId]
  have huniqueF : rowUniqueOK sch (st.get table)
      (materialize sch now (nextPk (st.get table))
        (r.map (fun kv => (kv.1, inVal table kv.1 kv.2)))) = false := by
    unfold rowUniqueOK
    rw [List.all_eq_false]
    refine ⟨sch.idField, F.idFieldUnique, ?_⟩
    rw [hnrId]
    simp only [Option.getD_some]
    obtain ⟨old_r, hor, hoval⟩ := hdup
    have hallF : (st.get table).all (fun r2 =>
        !(((r2.get sch.idField).getD .vnull) == .vstr v)) = false := by
      rw [List.all_eq_false]
      refine ⟨old_r, hor, ?_⟩
      rw [hoval]
      simp
    rw [hallF]
    simp
  have hcheckF := checkRow_dup sch (st.get table) _ htypes hnotnull huniqueF
  unfold create
  rw [hT]
  show Except.bind (convertEnums table r) _ = _
  rw [hconv]
  show (match (r.map (fun kv => (kv.1, inVal table kv.1 kv.2))).find?
      (fun p => !(sch.columns.contains p.1)) with
    | some p => Except.error (PyError.typeError (p.1 ++ " is an invalid keyword argument"))
    | none =>
      match checkRow sch (st.get table) (materialize sch now (nextPk (st.get table))
          (r.map (fun kv : String × Value => (kv.1, inVal table kv.1 kv.2)))) with
      | Except.error e =>
          Except.error (PyError.databaseException ("Failed to create record: " ++ e.msg))
      | Except.ok _ => Except.ok (true, st.set table ((st.get table) ++
          [materialize sch now (nextPk (st.get table))
            (r.map (fun kv : String × Value => (kv.1, inVal table kv.1 kv.2)))]))) = _
  rw [hfind, hcheckF]
  rfl

/-!
Claim C3: the create and read round trip, amended for the schema
constraints of the relational backend.
-/

/-- C3 (amended) theorem: for every known table and every supplied
record whose keys are distinct schema columns other than the internal
id, whose values are admissible for their columns (valid member strings
or NULL for the two enum columns, NULL for the datetime column, boolean
or NULL for boolean columns, strings or NULL for the String and Text
columns — whose TEXT affinity would turn any other scalar into its text
form, breaking the round trip), which supplies a
non-NULL value for every nullable=False column, which carries the
business identifier as a string, and whose values at unique columns
collide with no existing row: create succeeds and a read filtered on
the business identifier returns exactly one record that agrees with the
supplied record on every supplied field (valid enum strings being their
own canonical form). -/
theorem create_read_roundtrip (table : String) (sch : TableSchema) (now v : String)
    (r : Record) (st : DBState)
    (hT : getModel table = .ok sch)
    (hnd : r.keys.Nodup)
    (hcols : ∀ kv ∈ r, kv.1 ∈ sch.columns ∧ kv.1 ≠ "id")
    (hadm : ∀ kv ∈ r, admissibleVal sch kv.1 kv.2 = true)
    (hnn : ∀ c ∈ sch.notNullCols, (r.get c).getD .vnull ≠ .vnull)
    (hid : r.get sch.idField = some (.vstr v))
    (huniq : ∀ c ∈ sch.uniqueCols, (r.get c).getD .vnull ≠ .vnull →
      ∀ old_r ∈ st.get table, ((old_r.get c).getD .vnull) ≠ (r.get c).getD .vnull) :
    ∃ st2, create now table r st = .ok (true, st2) ∧
      ∃ out, read table [(sch.idField, .vstr v)] st2 = .ok [out] ∧
        out.get sch.idField = some (.vstr v) ∧
        ∀ kv ∈ r, out.get kv.1 = some kv.2 := by
  have hF : SchemaFacts sch ∧ convertFilterVal table sch.idField (.vstr v) = .ok (.vstr v) := by
    rcases getModel_inv table sch hT with ⟨ht, hs⟩ | ⟨ht, hs⟩ | ⟨ht, hs⟩ | ⟨ht, hs⟩ <;>
      subst ht <;> subst hs
    · exact ⟨usersFacts, rfl⟩
    · exact ⟨patientsFacts, rfl⟩
    · exact ⟨appointmentsFacts, rfl⟩
    · exact ⟨billingFacts, rfl⟩
  obtain ⟨hc, hr2⟩ := create_ok_core table sch now v r st hT hF.1 hnd hcols hadm
    hnn hid huniq hF.2
  exact ⟨_, hc, hr2⟩

/-- Record used by the C3 witness: a minimal valid patient. -/
def rPat : Record :=
  [("patient_id", .vstr "PAT001"), ("first_name", .vstr "Ada"),
   ("last_name", .vstr "L"), ("date_of_birth", .vstr "2000-01-01"),
   ("gender", .vstr "F"), ("phone", .vstr "123"),
   ("registration_date", .vstr "2026-10-12")]

/-- C3 witness: creating the patient PAT001 in the empty database and
reading it back by patient_id returns exactly one agreeing record. -/
theorem create_read_roundtrip_witness :
    ∃ st2, create "T0" "patients" rPat emptyDB = .ok (true, st2) ∧
      ∃ out, read "patients" [("patient_id", .vstr "PAT001")] st2 = .ok [out] ∧
        out.get "patient_id" = some (.vstr "PAT001") ∧
        ∀ kv ∈ rPat, out.get kv.1 = some kv.2 :=
  create_read_roundtrip "patients" patientsSchema "T0" "PAT001" rPat emptyDB rfl
    (by decide) (by decide) (by decide) (by decide) (by decide) (by decide)

/-- State used by the C3 and C7 counterexamples: one existing user with
user_id USR001 and username admin, and one existing patient PAT001. -/
def seededDB : DBState :=
  { emptyDB with
    users := [[("user_id", .vstr "USR001"), ("username", .vstr "admin")]],
    patients := [[("patient_id", .vstr "PAT001")]] }

/-- C3 counterexample to the claim as stated: a user record whose
business identifier USR999 is fresh but whose username duplicates an
existing row is rejected by the unique constraint on username, so the
create-then-read sequence raises a DatabaseException instead of
returning the record. -/
theorem create_read_roundtrip_counterexample :
    create "T0" "users"
      [("user_id", .vstr "USR999"), ("username", .vstr "admin"),
       ("password", .vstr "x"), ("role", .vstr "admin"),
       ("full_name", .vstr "A"), ("email", .vstr "e")] seededDB =
      .error (.databaseException "Failed to create record: UNIQUE constraint failed") ∧
    ∀ (b : Bool) (st2 : DBState), create "T0" "users"
      [("user_id", .vstr "USR999"), ("username", .vstr "admin"),
       ("password", .vstr "x"), ("role", .vstr "admin"),
       ("full_name", .vstr "A"), ("email", .vstr "e")] seededDB ≠ .ok (b, st2) := by
  refine ⟨rfl, ?_⟩
  intro b st2 h
  rw [(rfl : create "T0" "users"
      [("user_id", .vstr "USR999"), ("username", .vstr "admin"),
       ("password", .vstr "x"), ("role", .vstr "admin"),
       ("full_name", .vstr "A"), ("email", .vstr "e")] seededDB =
      .error (.databaseException "Failed to create record: UNIQUE constraint failed"))] at h
  exact Except.noConfusion h

/-!
Claim C7: create performs no application-level validation or duplicate
check of its own, but the relational schema declares the business
identifier unique, so inserting a record whose business identifier
already exists fails with a store fault instead of succeeding.
-/

/-- C7 (amended) theorem: the code of create performs no duplicate-ID
validation (an otherwise admissible record with fresh unique values is
inserted as given, first conjunct), yet a record whose business
identifier equals that of an existing row is rejected by the schema
unique constraint with a DatabaseException (second conjunct).
Admissibility supplies the unique-column values as strings, which TEXT
affinity stores unchanged, so the freshness comparison is the one the
backend makes. -/
theorem create_no_validation_but_unique_constraint (table : String) (sch : TableSchema)
    (now v : String) (r : Record) (st : DBState)
    (hT : getModel table = .ok sch)
    (hnd : r.keys.Nodup)
    (hcols : ∀ kv ∈ r, kv.1 ∈ sch.columns ∧ kv.1 ≠ "id")
    (hadm : ∀ kv ∈ r, admissibleVal sch kv.1 kv.2 = true)
    (hnn : ∀ c ∈ sch.notNullCols, (r.get c).getD .vnull ≠ .vnull)
    (hid : r.get sch.idField = some (.vstr v)) :
    ((∀ c ∈ sch.uniqueCols, (r.get c).getD .vnull ≠ .vnull →
        ∀ old_r ∈ st.get table, ((old_r.get c).getD .vnull) ≠ (r.get c).getD .vnull) →
      ∃ st2, create now table r st = .ok (true, st2)) ∧
    ((∃ old_r ∈ st.get table, ((old_r.get sch.idField).getD .vnull) = .vstr v) →
      create now table r st =
        .error (.databaseException "Failed to create record: UNIQUE constraint failed")) := by
  constructor
  · intro huniq
    have hF : SchemaFacts sch ∧
        convertFilterVal table sch.idField (.vstr v) = .ok (.vstr v) := by
      rcases getModel_inv table sch hT with ⟨ht, hs⟩ | ⟨ht, hs⟩ | ⟨ht, hs⟩ | ⟨ht, hs⟩ <;>
        subst ht <;> subst hs
      · exact ⟨usersFacts, rfl⟩
      · exact ⟨patientsFacts, rfl⟩
      · exact ⟨appointmentsFacts, rfl⟩
      · exact ⟨billingFacts, rfl⟩
    obtain ⟨hc, _⟩ := create_ok_core table sch now v r st hT hF.1 hnd hcols hadm
      hnn hid huniq hF.2
    exact ⟨_, hc⟩
  · intro hdup
    have hF : SchemaFacts sch := by
      rcases getModel_inv table sch hT with ⟨ht, hs⟩ | ⟨ht, hs⟩ | ⟨ht, hs⟩ | ⟨ht, hs⟩ <;>
        subst ht <;> subst hs
      · exact usersFacts
      · exact patientsFacts
      · exact appointmentsFacts
      · exact billingFacts
    exact create_dup_core table sch now v r st hT hF hnd hcols hadm hnn hid hdup

/-- C7 witness: inserting a fresh patient PAT002 into the seeded
database succeeds, while re-inserting business identifier PAT001 fails
with the unique-constraint DatabaseException. -/
theorem create_no_validation_but_unique_constraint_witness :
    (∃ st2, create "T0" "patients"
      [("patient_id", .vstr "PAT002"), ("first_name", .vstr "Bo"),
       ("last_name", .vstr "K"), ("date_of_birth", .vstr "1999-02-02"),
       ("gender", .vstr "M"), ("phone", .vstr "456"),
       ("registration_date", .vstr "2026-10-12")] seededDB = .ok (true, st2)) ∧
    create "T0" "patients"
      [("patient_id", .vstr "PAT001"), ("first_name", .vstr "Cy"),
       ("last_name", .vstr "Q"), ("date_of_birth", .vstr "1998-03-03"),
       ("gender", .vstr "F"), ("phone", .vstr "789"),
       ("registration_date", .vstr "2026-10-12")] seededDB =
      .error (.databaseException "Failed to create record: UNIQUE constraint failed") :=
  ⟨(create_no_validation_but_unique_constraint "patients" patientsSchema "T0" "PAT002"
      [("patient_id", .vstr "PAT002"), ("first_name", .vstr "Bo"),
       ("last_name", .vstr "K"), ("date_of_birth", .vstr "1999-02-02"),
       ("gender", .vstr "M"), ("phone", .vstr "456"),
       ("registration_date", .vstr "2026-10-12")] seededDB rfl
      (by decide) (by decide) (by decide) (by decide) (by decide)).1 (by decide),
   (create_no_validation_but_unique_constraint "patients" patientsSchema "T0" "PAT001"
      [("patient_id", .vstr "PAT001"), ("first_name", .vstr "Cy"),
       ("last_name", .vstr "Q"), ("date_of_birth", .vstr "1998-03-03"),
       ("gender", .vstr "F"), ("phone", .vstr "789"),
       ("registration_date", .vstr "2026-10-12")] seededDB rfl
      (by decide) (by decide) (by decide) (by decide) (by decide)).2 (by decide)⟩

/-- C7 counterexample to the claim as stated: creating a patient whose
business identifier PAT001 already exists does not succeed; it raises a
DatabaseException from the unique constraint. -/
theorem create_duplicate_counterexample :
    create "T0" "patients"
      [("patient_id", .vstr "PAT001"), ("first_name", .vstr "Cy"),
       ("last_name", .vstr "Q"), ("date_of_birth", .vstr "1998-03-03"),
       ("gender", .vstr "F"), ("phone", .vstr "789"),
       ("registration_date", .vstr "2026-10-12")] seededDB =
      .error (.databaseException "Failed to create record: UNIQUE constraint failed") ∧
    ∀ (b : Bool) (st2 : DBState), create "T0" "patients"
      [("patient_id", .vstr "PAT001"), ("first_name", .vstr "Cy"),
       ("last_name", .vstr "Q"), ("date_of_birth", .vstr "1998-03-03"),
       ("gender", .vstr "F"), ("phone", .vstr "789"),
       ("registration_date", .vstr "2026-10-12")] seededDB ≠ .ok (b, st2) := by
  refine ⟨rfl, ?_⟩
  intro b st2 h
  rw [(rfl : create "T0" "patients"
      [("patient_id", .vstr "PAT001"), ("first_name", .vstr "Cy"),
       ("last_name", .vstr "Q"), ("date_of_birth", .vstr "1998-03-03"),
       ("gender", .vstr "F"), ("phone", .vstr "789"),
       ("registration_date", .vstr "2026-10-12")] seededDB =
      .error (.databaseException "Failed to create record: UNIQUE constraint failed"))] at h
  exact Except.noConfusion h

/-!
Claim C10: update on an existing record.
-/

theorem applyUpdates_cons (cols : List String) (rec : Record) (kv : String × Value)
    (rest : List (String × Value)) :
    applyUpdates cols rec (kv :: rest) =
      applyUpdates cols (if cols.contains kv.1 then rec.set kv.1 kv.2 else rec) rest := by
  unfold applyUpdates
  rw [List.foldl_cons]

theorem applyUpdates_get_skip (cols : List String) (rec : Record)
    (uc : List (String × Value)) (k : String)
    (h : ∀ kv ∈ uc, kv.1 = k → ¬ kv.1 ∈ cols) :
    Record.get (applyUpdates cols rec uc) k = rec.get k := by
  induction uc generalizing rec with
  | nil => rfl
  | cons kv rest ih =>
      rw [applyUpdates_cons]
      by_cases hc : cols.contains kv.1 = true
      · rw [if_pos hc]
        rw [ih _ (fun kv2 hm he => h kv2 (List.mem_cons_of_mem kv hm) he)]
        by_cases hk : kv.1 = k
        · exact absurd ((contains_iff _ _).mp hc) (h kv (List.mem_cons_self kv rest) hk)
        · exact Record.get_set_ne rec kv.1 k kv.2 hk
      · rw [if_neg hc]
        exact ih _ (fun kv2 hm he => h kv2 (List.mem_cons_of_mem kv hm) he)

theorem applyUpdates_get_hit (cols : List String) (rec : Record)
    (uc : List (String × Value)) (k : String) (w : Value)
    (hnd : (uc.map Prod.fst).Nodup) (hmem : (k, w) ∈ uc) (hk : k ∈ cols) :
    Record.get (applyUpdates cols rec uc) k = some w := by
  induction uc generalizing rec with
  | nil => cases hmem
  | cons kv rest ih =>
      rw [applyUpdates_cons]
      rw [List.map_cons, List.nodup_cons] at hnd
      rcases List.mem_cons.mp hmem with h1 | h1
      · rw [← h1]
        rw [if_pos ((contains_iff _ _).mpr hk)]
        rw [applyUpdates_get_skip cols _ rest k (fun kv2 hm2 he2 => by
          exfalso
          apply hnd.1
          rw [← h1]
          show k ∈ rest.map Prod.fst
          rw [← he2]
          exact List.mem_map.mpr ⟨kv2, hm2, rfl⟩)]
        exact Record.get_set_self rec k w
      · have hk1 : kv.1 ≠ k := by
          intro he
          apply hnd.1
          rw [he]
          exact List.mem_map.mpr ⟨(k, w), h1, rfl⟩
        by_cases hc : cols.contains kv.1 = true
        · rw [if_pos hc]
          exact ih _ hnd.2 h1
        · rw [if_neg hc]
          exact ih _ hnd.2 h1

theorem applyUpdates_id (cols : List String) (rec : Record)
    (uc : List (String × Value)) (h : ∀ kv ∈ uc, ¬ kv.1 ∈ cols) :
    applyUpdates cols rec uc = rec := by
  induction uc with
  | nil => rfl
  | cons kv rest ih =>
      have hc : cols.contains kv.1 = false := by
        cases hcc : cols.contains kv.1 with
        | false => rfl
        | true => exact absurd ((contains_iff _ _).mp hcc) (h kv (List.mem_cons_self kv rest))
      rw [applyUpdates_cons, hc, if_neg (by simp : ¬(false = true))]
      exact ih (fun kv2 hm => h kv2 (List.mem_cons_of_mem kv hm))

/-- C10 (amended) theorem: for every known table, every state whose
table holds a first record matching the id value on an attribute
id_field, and every updates dict whose column-keyed entries are
admissible (in particular strings at the String and Text columns, which
TEXT affinity stores unchanged) and whose application leaves the row
acceptable to the schema constraints: update returns True; the matched
record receives
exactly the update entries whose keys are columns of the model (enum
strings stored as members); entries with non-column keys are silently
ignored, so a dict of only non-column keys changes nothing; and every
other field, record and table is unchanged. -/
theorem update_existing_spec (table : String) (sch : TableSchema)
    (pre : List Record) (rec : Record) (post : List Record) (st : DBState)
    (v id_field : String) (updates : List (String × Value))
    (hT : getModel table = .ok sch)
    (hst : st.get table = pre ++ rec :: post)
    (hfield : id_field ∈ sch.columns)
    (hpre : ∀ r2 ∈ pre, ((r2.get id_field).getD .vnull) ≠ .vstr v)
    (hrec : ((rec.get id_field).getD .vnull) = .vstr v)
    (hnd : (updates.map Prod.fst).Nodup)
    (hadm : ∀ kv ∈ updates, kv.1 ∈ sch.columns → admissibleVal sch kv.1 kv.2 = true)
    (hchk : checkRow sch (pre ++ post) (applyUpdates sch.columns rec
      (updates.map (fun q => (q.1, inVal table q.1 q.2)))) = .ok ()) :
    ∃ rec2 st2, update table v id_field updates st = .ok (true, st2) ∧
      st2.get table = pre ++ rec2 :: post ∧
      (∀ kv ∈ updates, kv.1 ∈ sch.columns →
        rec2.get kv.1 = some (inVal table kv.1 kv.2)) ∧
      (∀ k : String, (∀ kv ∈ updates, kv.1 = k → ¬ kv.1 ∈ sch.columns) →
        rec2.get k = rec.get k) ∧
      ((∀ kv ∈ updates, ¬ kv.1 ∈ sch.columns) → rec2 = rec) ∧
      (∀ t2, t2 ≠ table → st2.get t2 = st.get t2) := by
  have hconv := convertEnums_eq_map table sch hT updates hnd hadm
  have hcf : (sch.columns.contains id_field) = true := (contains_iff _ _).mpr hfield
  have hsplit : splitAtFirst
      (fun r2 => ((r2.get id_field).getD .vnull) == .vstr v) (st.get table) =
      some (pre, rec, post) := by
    rw [hst]
    exact splitAtFirst_spec _ pre rec post
      (fun r2 hr2 => beq_eq_false_iff_ne.mpr (hpre r2 hr2))
      (by rw [hrec]; exact beq_self_eq_true _)
  refine ⟨applyUpdates sch.columns rec
      (updates.map (fun q => (q.1, inVal table q.1 q.2))),
    st.set table (pre ++ applyUpdates sch.columns rec
      (updates.map (fun q => (q.1, inVal table q.1 q.2))) :: post),
    ?_, ?_, ?_, ?_, ?_, ?_⟩
  · unfold update
    rw [hT]
    show Except.bind (convertEnums table updates) _ = _
    rw [hconv]
    show (if (!(sch.columns.contains id_field)) = true then _ else _) = _
    rw [hcf]
    show (match splitAtFirst
        (fun r2 => ((r2.get id_field).getD .vnull) == .vstr v) (st.get table) with
      | none => Except.ok (false, st)
      | some (pre2, rec2, post2) =>
          match checkRow sch (pre2 ++ post2) (applyUpdates sch.columns rec2
              (updates.map (fun q : String × Value => (q.1, inVal table q.1 q.2)))) with
          | Except.error e => Except.error
              (PyError.databaseException ("Failed to update record: " ++ e.msg))
          | Except.ok _ => Except.ok (true, st.set table
              (pre2 ++ applyUpdates sch.columns rec2
                (updates.map (fun q : String × Value => (q.1, inVal table q.1 q.2)))
                :: post2))) = _
    rw [hsplit]
    show (match checkRow sch (pre ++ post) (applyUpdates sch.columns rec
        (updates.map (fun q : String × Value => (q.1, inVal table q.1 q.2)))) with
      | Except.error e => Except.error
          (PyError.databaseException ("Failed to update record: " ++ e.msg))
      | Except.ok _ => Except.ok (true, st.set table
          (pre ++ applyUpdates sch.columns rec
            (updates.map (fun q : String × Value => (q.1, inVal table q.1 q.2)))
            :: post))) = _
    rw [hchk]
  · rw [DBState.get_set_self_known st table sch hT]
  · intro kv hm hcm
    apply applyUpdates_get_hit
    · rw [show (updates.map (fun q => (q.1, inVal table q.1 q.2))).map Prod.fst =
        updates.map Prod.fst from Record.keys_map_entry updates (inVal table)]
      exact hnd
    · exact List.mem_map.mpr ⟨kv, hm, rfl⟩
    · exact hcm
  · intro k hk
    apply applyUpdates_get_skip
    intro kv2 hm2 he2
    obtain ⟨kv, hkv, rfl⟩ := List.mem_map.mp hm2
    exact hk kv hkv he2
  · intro hnone
    apply applyUpdates_id
    intro kv2 hm2
    obtain ⟨kv, hkv, rfl⟩ := List.mem_map.mp hm2
    exact hnone kv hkv
  · intro t2 ht2
    exact DBState.get_setTable_ne st table t2 _ ht2

/-- Fully materialized patient row used by the C10 witness. -/
def fullPat : Record :=
  [("id", .vint 1), ("patient_id", .vstr "PAT001"), ("first_name", .vstr "Ada"),
   ("last_name", .vstr "L"), ("date_of_birth", .vstr "2000-01-01"),
   ("gender", .vstr "F"), ("phone", .vstr "123"), ("email", .vnull),
   ("address", .vnull), ("blood_group", .vnull), ("emergency_contact", .vnull),
   ("registration_date", .vstr "2026-10-12"), ("is_active", .vbool true),
   ("created_at", .vdtm "T0")]

/-- Database holding exactly that patient row. -/
def onePatFullDB : DBState := { emptyDB with patients := [fullPat] }

/-- C10 witness: updating phone (a column) and nocol (not a column) on
the stored patient returns True, stores the new phone, ignores the
non-column key and leaves every other field and table unchanged. -/
theorem update_existing_spec_witness :
    ∃ rec2 st2, update "patients" "PAT001" "patient_id"
        [("phone", .vstr "999"), ("nocol", .vstr "z")] onePatFullDB =
        .ok (true, st2) ∧
      st2.get "patients" = [] ++ rec2 :: [] ∧
      (∀ kv ∈ [(("phone" : String), Value.vstr "999"), (("nocol" : String), Value.vstr "z")],
        kv.1 ∈ patientsSchema.columns →
        rec2.get kv.1 = some (inVal "patients" kv.1 kv.2)) ∧
      (∀ k : String, (∀ kv ∈ [(("phone" : String), Value.vstr "999"),
          (("nocol" : String), Value.vstr "z")], kv.1 = k → ¬ kv.1 ∈ patientsSchema.columns) →
        rec2.get k = fullPat.get k) ∧
      ((∀ kv ∈ [(("phone" : String), Value.vstr "999"), (("nocol" : String), Value.vstr "z")],
        ¬ kv.1 ∈ patientsSchema.columns) → rec2 = fullPat) ∧
      (∀ t2, t2 ≠ "patients" → st2.get t2 = onePatFullDB.get t2) :=
  update_existing_spec "patients" patientsSchema [] fullPat [] onePatFullDB
    "PAT001" "patient_id" [("phone", .vstr "999"), ("nocol", .vstr "z")]
    rfl (by decide) (by decide) (by decide) (by decide) (by decide) (by decide) rfl

/-- C10 counterexample to the claim as stated: with the patient row
replaced by a users row USR001, an updates dict whose role entry is not
a valid enumeration member makes update raise ValueError before
touching the row, instead of returning true and setting the column. -/
theorem update_existing_counterexample :
    update "users" "USR001" "user_id" [("role", .vstr "superadmin")]
      ({ emptyDB with users := [[("user_id", .vstr "USR001"),
        ("username", .vstr "admin")]] }) =
      .error (.valueError "superadmin is not a valid enum member") ∧
    ∀ (b : Bool) (st2 : DBState),
      update "users" "USR001" "user_id" [("role", .vstr "superadmin")]
        ({ emptyDB with users := [[("user_id", .vstr "USR001"),
          ("username", .vstr "admin")]] }) ≠ .ok (b, st2) := by
  refine ⟨rfl, ?_⟩
  intro b st2 h
  rw [(rfl : update "users" "USR001" "user_id" [("role", .vstr "superadmin")]
      ({ emptyDB with users := [[("user_id", .vstr "USR001"),
        ("username", .vstr "admin")]] }) =
      .error (.valueError "superadmin is not a valid enum member"))] at h
  exact Except.noConfusion h

/-!
Claim C1: the ID generator.  The code does not extract the numeric
suffix after the leading prefix: it deletes every occurrence of the
prefix anywhere in the identifier with str.replace and parses the
remainder with int.  The two readings agree on every identifier in
which the prefix does not recur after its leading occurrence (all
generated identifiers), and differ otherwise.
-/

/-- Identifier values of the table rows at the designated field, in row
order. -/
def idValues (table idf : String) (st : DBState) : List Value :=
  (st.get table).map (fun r => (r.get idf).getD .vnull)

/-- Value is a string or NULL (the shapes under which get_next_id does
not raise). -/
def strOrNull : Value → Bool
  | .vstr _ => true
  | .vnull => true
  | _ => false

/-- Pure reading of the per-identifier computation of get_next_id: a
string identifier that starts with the prefix contributes the integer
parsed from the identifier with every occurrence of the prefix deleted,
and contributes nothing otherwise; non-string values contribute
nothing. -/
def codeSuffixNum (pre : String) (v : Value) : Option Int :=
  match v with
  | .vstr s => if pyStartsWith s pre then pyIntOfString? (pyStrDelete s pre) else none
  | _ => none

/-- Pure specification of get_next_id: the prefix followed by the
zero-filled successor of the maximum (at least 0) of the contributions
of the identifiers. -/
def specNextId (pre : String) (ids : List Value) : String :=
  pre ++ zfill3 (intToStr ((ids.filterMap (codeSuffixNum pre)).foldl max 0 + 1))

/-- Numeric-suffix reading of the claim sentence: the identifier must
start with the prefix and the remainder after dropping one leading copy
of the prefix must be a nonempty digit string. -/
def claimSuffixNum (pre s : String) : Option Nat :=
  if pyStartsWith s pre then
    let t := s.toList.drop pre.toList.length
    if !t.isEmpty && t.all Char.isDigit then some (digitsToNat t) else none
  else none

/-- Next id under the claim sentence reading. -/
def claimNextId (pre : String) (ids : List Value) : String :=
  pre ++ zfill3 (intToStr ((ids.filterMap (fun v =>
    match v with
    | .vstr s => (claimSuffixNum pre s).map (fun n => (n : Int))
    | _ => none)).foldl max 0 + 1))

theorem specNextId_nil (pre : String) : specNextId pre [] = pre ++ "001" := by
  unfold specNextId
  rw [List.filterMap_nil]
  have h1 : zfill3 (intToStr (([] : List Int).foldl max 0 + 1)) = "001" := by decide
  rw [h1]

theorem codeSuffixNum_of_empty (pre s : String) (h : s.toList = []) :
    codeSuffixNum pre (.vstr s) = none := by
  obtain ⟨sd⟩ := s
  obtain ⟨pd⟩ := pre
  have h2 : sd = [] := h
  subst h2
  cases pd with
  | nil => rfl
  | cons p ps => rfl

theorem suffixVal_vstr_of_empty (pre s : String) (h : s.toList = []) :
    suffixVal pre (.vstr s) = .ok none := by
  obtain ⟨sd⟩ := s
  have h2 : sd = [] := h
  subst h2
  rfl

theorem suffixVal_vstr_of_nonempty (pre s : String) (h : ¬s.toList = []) :
    suffixVal pre (.vstr s) =
      (if pyStartsWith s pre then .ok (pyIntOfString? (pyStrDelete s pre))
       else .ok none) := by
  obtain ⟨sd⟩ := s
  cases sd with
  | nil => exact absurd rfl h
  | cons c cs => rfl

theorem suffixVal_eq_code (pre : String) (v : Value) (h : strOrNull v = true) :
    suffixVal pre v = .ok (codeSuffixNum pre v) := by
  cases v with
  | vnull => rfl
  | vstr s =>
      by_cases hs : s.toList = []
      · rw [suffixVal_vstr_of_empty pre s hs, codeSuffixNum_of_empty pre s hs]
      · rw [suffixVal_vstr_of_nonempty pre s hs]
        by_cases hp : pyStartsWith s pre
        · rw [if_pos hp]
          show _ = Except.ok (if pyStartsWith s pre then
            pyIntOfString? (pyStrDelete s pre) else none)
          rw [if_pos hp]
        · rw [if_neg hp]
          show _ = Except.ok (if pyStartsWith s pre then
            pyIntOfString? (pyStrDelete s pre) else none)
          rw [if_neg hp]
  | vint n => simp [strOrNull] at h
  | vnum q => simp [strOrNull] at h
  | vbool b => simp [strOrNull] at h
  | vdtm s => simp [strOrNull] at h
  | venum s => simp [strOrNull] at h
  | vitems l => simp [strOrNull] at h

theorem foldlM_suffix (pre idf : String) (rows : List Record) (a : Int)
    (h : ∀ r ∈ rows, strOrNull ((r.get idf).getD .vnull) = true) :
    (rows.foldlM (fun acc r => do
        match ← suffixVal pre ((r.get idf).getD .vnull) with
        | some n => pure (max acc n)
        | none => pure acc) a : Except PyError Int) =
    .ok (((rows.map (fun r => (r.get idf).getD .vnull)).filterMap
      (codeSuffixNum pre)).foldl max a) := by
  induction rows generalizing a with
  | nil => rfl
  | cons r rest ih =>
      rw [List.foldlM_cons]
      have hr := h r (List.mem_cons_self r rest)
      have hrest : ∀ x ∈ rest, strOrNull ((x.get idf).getD .vnull) = true :=
        fun x hx => h x (List.mem_cons_of_mem r hx)
      rw [suffixVal_eq_code pre _ hr]
      rw [List.map_cons, List.filterMap_cons]
      cases hc : codeSuffixNum pre ((r.get idf).getD .vnull) with
      | none =>
          show (rest.foldlM _ a : Except PyError Int) = _
          rw [ih a hrest]
      | some n =>
          show (rest.foldlM _ (max a n) : Except PyError Int) = _
          rw [ih (max a n) hrest, List.foldl_cons]

theorem foldl_max_perm {l1 l2 : List Int} (p : l1.Perm l2) (a : Int) :
    l1.foldl max a = l2.foldl max a := by
  induction p generalizing a with
  | nil => rfl
  | cons x _ ih => rw [List.foldl_cons, List.foldl_cons, ih]
  | swap x y l => rw [List.foldl_cons, List.foldl_cons, List.foldl_cons,
      List.foldl_cons, sup_right_comm]
  | trans _ _ ih1 ih2 => rw [ih1, ih2]

/-- Three patients with suffixes 1, 3, 7 in one creation order. -/
def perm137a : DBState :=
  { emptyDB with patients := [[("patient_id", Value.vstr "PAT001")],
      [("patient_id", Value.vstr "PAT003")], [("patient_id", Value.vstr "PAT007")]] }

/-- The same three patients in another creation order. -/
def perm137b : DBState :=
  { emptyDB with patients := [[("patient_id", Value.vstr "PAT007")],
      [("patient_id", Value.vstr "PAT001")], [("patient_id", Value.vstr "PAT003")]] }

/-- C1 amended theorem: for every known table with its identifier field,
every prefix and every state whose identifier values are strings or
NULL, get_next_id returns the prefix followed by the zero-filled
successor of the maximum (floored at 0) of the parsed identifiers,
where an identifier contributes only when it is a truthy string that
starts with the prefix and its remainder, after deleting every
occurrence of the prefix, parses as an optionally signed integer; on an
empty table the result is the prefix followed by 001; the result is
invariant under permutation of the rows; and on the table holding
suffixes 1, 3 and 7 under PAT, both creation orders yield PAT008. -/
theorem get_next_id_spec (table : String) (sch : TableSchema) (idf pre : String)
    (st : DBState) (hT : getModel table = .ok sch)
    (hidf : id_field_map table = some idf)
    (h : ∀ r ∈ st.get table, strOrNull ((r.get idf).getD .vnull) = true) :
    get_next_id table pre st = .ok (specNextId pre (idValues table idf st)) ∧
    (st.get table = [] → get_next_id table pre st = .ok (pre ++ "001")) ∧
    (∀ st2 : DBState, (st2.get table).Perm (st.get table) →
      get_next_id table pre st2 = get_next_id table pre st) ∧
    get_next_id "patients" "PAT" perm137a = .ok "PAT008" ∧
    get_next_id "patients" "PAT" perm137b = .ok "PAT008" := by
  have hchar : ∀ st3 : DBState,
      (∀ r ∈ st3.get table, strOrNull ((r.get idf).getD .vnull) = true) →
      get_next_id table pre st3 = .ok (specNextId pre (idValues table idf st3)) := by
    intro st3 h3
    unfold get_next_id
    rw [hT, hidf]
    show get_next_id_core idf pre (st3.get table) = _
    unfold get_next_id_core
    by_cases he : (st3.get table).isEmpty
    · rw [if_pos he]
      have h4 : st3.get table = [] := by
        cases hl : st3.get table with
        | nil => rfl
        | cons a l => rw [hl] at he; exact absurd he (by simp [List.isEmpty])
      unfold idValues
      rw [h4, List.map_nil, specNextId_nil]
    · rw [if_neg he]
      show Except.bind ((st3.get table).foldlM _ (0 : Int)) _ = _
      rw [foldlM_suffix pre idf (st3.get table) 0 h3]
      show Except.ok _ = _
      unfold specNextId idValues
      rfl
  refine ⟨hchar st h, ?_, ?_, rfl, rfl⟩
  · intro he
    rw [hchar st h]
    unfold idValues
    rw [he, List.map_nil, specNextId_nil]
  · intro st2 hperm
    have h2 : ∀ r ∈ st2.get table, strOrNull ((r.get idf).getD .vnull) = true :=
      fun r hr => h r (hperm.mem_iff.mp hr)
    rw [hchar st2 h2, hchar st h]
    unfold specNextId idValues
    have hp3 := (hperm.map (fun r => (r.get idf).getD .vnull)).filterMap
      (codeSuffixNum pre)
    rw [foldl_max_perm hp3]

/-- C1 witness: the amended theorem applied to the patients table with
prefix PAT on the state holding suffixes 1, 3 and 7, whose identifier
values are all strings. -/
theorem get_next_id_spec_witness :
    get_next_id "patients" "PAT" perm137a =
      .ok (specNextId "PAT" (idValues "patients" "patient_id" perm137a)) ∧
    get_next_id "patients" "PAT" perm137a = .ok "PAT008" :=
  ⟨(get_next_id_spec "patients" patientsSchema "patient_id" "PAT" perm137a rfl rfl
      (by decide)).1,
   (get_next_id_spec "patients" patientsSchema "patient_id" "PAT" perm137a rfl rfl
      (by decide)).2.2.2.1⟩

/-- C1 counterexample to the claim as stated: with patients A005 and
A1A2 on file, the numeric-suffix reading of the claim ignores A1A2 (the
suffix 1A2 is not numeric) and yields A006, but the code deletes every
occurrence of the prefix A from A1A2, parses 12, and returns A013. -/
theorem get_next_id_counterexample :
    get_next_id "patients" "A"
      ({ emptyDB with patients := [[("patient_id", Value.vstr "A005")],
          [("patient_id", Value.vstr "A1A2")]] }) = .ok "A013" ∧
    claimNextId "A" [.vstr "A005", .vstr "A1A2"] = "A006" ∧
    "A013" ≠ "A006" := ⟨rfl, rfl, by decide⟩

end HMS
